import Mathlib

/-!
Verification of the WealthCommander trading dashboard (Node/Express + React
variant).  The TypeScript sources are shallowly embedded: the in-memory
`MemStorage` maps become association lists, JavaScript numbers that only
flow into displayed text are abstracted behind a primitive table, and the
`setTimeout` based strategy execution becomes an explicit timer queue.
Monetary amounts that the program always formats with `toFixed(2)` are
modelled as integer cents.
-/

namespace WealthCommander

/-! ## JavaScript number model

A JavaScript number that can be `NaN` is modelled as `Option ℚ`
(`none` = `NaN`).  The values only matter where the source branches on
them; display formatting is abstracted. -/

abbrev JNum := Option ℚ

/-- JS truthiness of a number: `NaN`, `0` (and `-0`) are falsy. -/
def jnumFalsy : JNum → Bool
  | none => true
  | some q => q == 0

/-- JS `a || b` on numbers. -/
def jsOrNum (a b : JNum) : JNum :=
  if jnumFalsy a then b else a

/-- `Math.floor` lifted to `JNum`. -/
def jfloor : JNum → JNum
  | none => none
  | some q => some (⌊q⌋ : ℤ)

/-- Division lifted to `JNum` (division by zero yields `Infinity` in JS;
we conservatively map it to `none`, it never occurs on the claimed paths). -/
def jdiv : JNum → JNum → JNum
  | some a, some b => if b = 0 then none else some (a / b)
  | _, _ => none

def jmul : JNum → JNum → JNum
  | some a, some b => some (a * b)
  | _, _ => none

/-! ## JavaScript string primitives

Structurally recursive models of the string methods the source uses
(`split(' ')`, `toLowerCase`, `toUpperCase`, `startsWith`, `endsWith`,
`slice`), so that concrete runs evaluate inside the kernel. -/

/-- `command.split(' ')` (JS `"".split(' ')` is `[""]`). -/
def jsSplitSpace (s : String) : List String :=
  let rec go : List Char → List Char → List String
    | [], acc => [String.mk acc.reverse]
    | c :: cs, acc =>
      if c = ' ' then String.mk acc.reverse :: go cs []
      else go cs (c :: acc)
  go s.toList []

def jsToLower (s : String) : String := String.mk (s.toList.map Char.toLower)

def jsToUpper (s : String) : String := String.mk (s.toList.map Char.toUpper)

def jsStartsWith (s p : String) : Bool := p.toList.isPrefixOf s.toList

def jsEndsWith (s p : String) : Bool := p.toList.isSuffixOf s.toList

/-- `s.slice(n)`. -/
def jsDrop (s : String) (n : Nat) : String := String.mk (s.toList.drop n)

/-- `s.slice(0, -n)`. -/
def jsDropRight (s : String) (n : Nat) : String :=
  String.mk (s.toList.take (s.toList.length - n))

def jsLength (s : String) : Nat := s.toList.length

/-! ## Data model (`shared/schema` projections used by the server) -/

/-- An order record as created by `MemStorage.createOrder`. -/
structure Order where
  id : String
  accountId : String
  symbol : String
  side : String
  quantity : JNum
  orderType : String
  price : Option String
  status : String
  strategyId : Option String
  alpacaOrderId : Option String
  filledAt : Option Nat
  createdAt : Nat
  deriving Repr, DecidableEq

/-- A position record (decimal columns are the strings the source stores). -/
structure Position where
  id : String
  accountId : String
  symbol : String
  quantity : Int
  avgPrice : String
  marketValue : String
  unrealizedPl : String
  updatedAt : Nat
  deriving Repr, DecidableEq

/-- `Partial<Position>`: every field optional, mirroring a JS partial object. -/
structure PartialPosition where
  id : Option String := none
  accountId : Option String := none
  symbol : Option String := none
  quantity : Option Int := none
  avgPrice : Option String := none
  marketValue : Option String := none
  unrealizedPl : Option String := none
  updatedAt : Option Nat := none
  deriving Repr, DecidableEq

/-- Market data; `price`, `change` are stored by the program as
`toFixed(2)` strings, modelled as integer cents, `changePercent` as
integer hundredths of a percent. -/
structure MarketData where
  id : String
  symbol : String
  priceCents : Int
  changeCents : Int
  changePercentCents : Int
  volume : Int
  timestamp : Nat
  deriving Repr, DecidableEq

/-- `Partial<MarketData>` as passed to `updateMarketData`. -/
structure PartialMarketData where
  id : Option String := none
  symbol : Option String := none
  priceCents : Option Int := none
  changeCents : Option Int := none
  changePercentCents : Option Int := none
  volume : Option Int := none
  timestamp : Option Nat := none
  deriving Repr, DecidableEq

/-! ## MemStorage (src/wealthcommander/server/storage.ts)

Each `Map` becomes an association list whose `set` prepends after erasing
the key, so `lookup` sees exactly the `Map` contents. -/

/-- `Map.set`: replace any binding of `k` by `v`. -/
def mapSet {β : Type} (m : List (String × β)) (k : String) (v : β) :
    List (String × β) :=
  (k, v) :: m.filter (fun p => p.1 ≠ k)

/-- `Map.get`. -/
def mapGet {β : Type} (m : List (String × β)) (k : String) : Option β :=
  (m.find? (fun p => p.1 = k)).map (·.2)

/-- `MemStorage.getPosition`: look up under the key `accountId-symbol`. -/
def getPosition (positions : List (String × Position))
    (accountId symbol : String) : Option Position :=
  mapGet positions (accountId ++ "-" ++ symbol)

/-- `MemStorage.updatePosition`: build
`{ id: existing?.id || randomUUID(), accountId, symbol, defaults…,
...existing, ...updates }` and store it under `accountId-symbol`.
`freshId`/`now` stand for `randomUUID()`/`new Date()`. -/
def updatePosition (positions : List (String × Position))
    (accountId symbol : String) (updates : PartialPosition)
    (freshId : String) (now : Nat) :
    List (String × Position) × Position :=
  let key := accountId ++ "-" ++ symbol
  let existing := mapGet positions key
  let base : Position :=
    { id := (existing.map (·.id)).getD freshId
      accountId := accountId
      symbol := symbol
      quantity := 0
      avgPrice := "0.00"
      marketValue := "0.00"
      unrealizedPl := "0.00"
      updatedAt := now }
  let afterExisting : Position := existing.getD base
  let position : Position :=
    { id := updates.id.getD afterExisting.id
      accountId := updates.accountId.getD afterExisting.accountId
      symbol := updates.symbol.getD afterExisting.symbol
      quantity := updates.quantity.getD afterExisting.quantity
      avgPrice := updates.avgPrice.getD afterExisting.avgPrice
      marketValue := updates.marketValue.getD afterExisting.marketValue
      unrealizedPl := updates.unrealizedPl.getD afterExisting.unrealizedPl
      updatedAt := updates.updatedAt.getD afterExisting.updatedAt }
  (mapSet positions key position, position)

/-- `MemStorage.getMarketData`. -/
def getMarketData (md : List (String × MarketData)) (symbol : String) :
    Option MarketData :=
  mapGet md symbol

/-- `MemStorage.updateMarketData`: `{ defaults…, ...existing, ...data }`. -/
def updateMarketData (md : List (String × MarketData)) (symbol : String)
    (data : PartialMarketData) (freshId : String) (now : Nat) :
    List (String × MarketData) × MarketData :=
  let existing := getMarketData md symbol
  let base : MarketData :=
    { id := (existing.map (·.id)).getD freshId
      symbol := symbol
      priceCents := 0
      changeCents := 0
      changePercentCents := 0
      volume := 0
      timestamp := now }
  let afterExisting : MarketData := existing.getD base
  let entry : MarketData :=
    { id := data.id.getD afterExisting.id
      symbol := data.symbol.getD afterExisting.symbol
      priceCents := data.priceCents.getD afterExisting.priceCents
      changeCents := data.changeCents.getD afterExisting.changeCents
      changePercentCents := data.changePercentCents.getD afterExisting.changePercentCents
      volume := data.volume.getD afterExisting.volume
      timestamp := data.timestamp.getD afterExisting.timestamp }
  (mapSet md symbol entry, entry)

/-- `MemStorage.getOrdersByAccountId`: filter the order map by account and
sort by `createdAt` descending (`Array.sort` with a numeric comparator is
stable, matching `mergeSort`). -/
def getOrdersByAccountId (orders : List Order) (accountId : String) :
    List Order :=
  ((orders.filter (fun o => o.accountId = accountId)).mergeSort
    (fun a b => b.createdAt ≤ a.createdAt))

/-- `MemStorage.updateOrder`: merge `updates` into the order stored under
`id` (no-op when absent).  Only the `status` field is ever updated by the
cancel paths, so the partial record is specialised to it. -/
def updateOrderStatus (orders : List Order) (id : String) (status : String) :
    List Order :=
  orders.map (fun o => if o.id = id then { o with status := status } else o)

/-! ## Interactive commands (server/interactive-commands.ts)

Display formatting of JS numbers (`${n}`, `toFixed(2)`,
`toLocaleString()`) and the external inputs (`myetf.json`, `parseFloat`,
`parseInt`, `randomUUID`, `Math.random`, the clock) are collected in a
primitive table `Prim`; every theorem quantifies over it. -/

structure EtfHolding where
  symbol : String
  percentage : ℚ
  deriving Repr, DecidableEq

structure Etf where
  holdings : List EtfHolding
  deriving Repr, DecidableEq

structure Prim where
  etfData : List (String × Etf)
  parseFloat : String → JNum
  parseInt : String → JNum
  numToStr : JNum → String
  toFixed2 : JNum → String
  localeNum : Int → String
  renderInfo : String
  renderPortfolio : String
  renderList : String
  renderOrdersList : String
  renderChart : String
  renderHolding : Position → Int → String
  jnumLocale : JNum → String
  freshId : String
  now : Nat
  mockPriceCents : Int
  mockChangeCents : Int
  mockVolume : Int

/-- The per-client wizard state (`InteractiveState`).  `quantity` is only
ever a JS number by the time it is stored, so it is a `JNum` (`none`
covers both `undefined` and `NaN`, which the program never separates). -/
structure IState where
  type : Option Bool := none
  step : Nat := 0
  ticker : Option String := none
  etfName : Option String := none
  quantity : JNum := none
  isETF : Option Bool := none
  deriving Repr, DecidableEq

/-- `type: 'buy'` is encoded as `some true`, `'sell'` as `some false`. -/
def IState.isBuy (s : IState) : Bool := s.type = some true

abbrev ClientStates := List (String × IState)

def csGet (cs : ClientStates) (c : String) : Option IState := mapGet cs c
def csSet (cs : ClientStates) (c : String) (v : IState) : ClientStates :=
  mapSet cs c v
def csDelete (cs : ClientStates) (c : String) : ClientStates :=
  cs.filter (fun p => p.1 ≠ c)

/-- JS falsiness of an optional string (`undefined` or `""`). -/
def strFalsy : Option String → Bool
  | none => true
  | some s => s = ""

/-- JS `String.replace(pat, "")` with a one-character string pattern
removes the first occurrence only. -/
def removeFirstChar (c : Char) (s : String) : String :=
  let rec go : List Char → List Char
    | [] => []
    | x :: xs => if x = c then xs else x :: go xs
  String.mk (go s.toList)

/-- `calculateBuyingPower`: `30840.66 * percentage / 100`. -/
def calculateBuyingPower (percentage : JNum) : JNum :=
  jdiv (jmul (some (3084066/100 : ℚ)) percentage) (some 100)

/-- `getCurrentPrice`: the hard-coded mock price table, default `100.00`. -/
def getCurrentPrice (symbol : String) : ℚ :=
  if symbol = "SOXL" then 51/2
  else if symbol = "QQQ" then 38025/100
  else if symbol = "VGT" then 45075/100
  else if symbol = "ARKK" then 4530/100
  else if symbol = "SOXX" then 2108/10
  else if symbol = "VOO" then 42015/100
  else if symbol = "VTI" then 2456/10
  else if symbol = "VXUS" then 652/10
  else if symbol = "NVDA" then 8504/10
  else if symbol = "AMD" then 1458/10
  else if symbol = "TSM" then 10525/100
  else if symbol = "AAPL" then 1755/10
  else if symbol = "MSFT" then 4153/10
  else if symbol = "GOOGL" then 1358/10
  else 100

structure Holding where
  quantity : ℚ
  avgPrice : ℚ
  deriving Repr, DecidableEq

/-- `getPortfolioHoldings`: the hard-coded mock portfolio, else `null`. -/
def getPortfolioHoldings (symbol : String) : Option Holding :=
  if symbol = "SOXL" then some ⟨20, 20⟩
  else if symbol = "QQQ" then some ⟨50, 37525/100⟩
  else if symbol = "VOO" then some ⟨25, 4105/10⟩
  else if symbol = "VTI" then some ⟨40, 24075/100⟩
  else none

structure QuantityInfo where
  qtype : String
  value : JNum
  shares : JNum
  deriving Repr, DecidableEq

/-- `parseQuantity`: `%` of buying power, `$` amount, or share count. -/
def parseQuantity (prim : Prim) (input : String) (currentPrice : ℚ) :
    QuantityInfo :=
  if jsEndsWith input "%" then
    let percentage := prim.parseFloat (jsDropRight input 1)
    let dollarAmount := calculateBuyingPower percentage
    let shares := jfloor (jdiv dollarAmount (some currentPrice))
    ⟨"percentage", percentage, shares⟩
  else if jsStartsWith input "$" then
    let dollars := prim.parseFloat (jsDrop input 1)
    let shares := jfloor (jdiv dollars (some currentPrice))
    ⟨"dollars", dollars, shares⟩
  else
    let shares := prim.parseFloat input
    ⟨"shares", shares, shares⟩

structure EtfDetail where
  symbol : String
  percentage : ℚ
  quantity : JNum
  price : ℚ
  total : JNum
  deriving Repr, DecidableEq

/-- `calculateETFDetails`: split `totalAmount` over the ETF holdings. -/
def calculateETFDetails (prim : Prim) (etfName : String)
    (totalAmount : JNum) : Option (List EtfDetail) :=
  match mapGet prim.etfData etfName with
  | none => none
  | some etf => some (etf.holdings.map (fun h =>
      let currentPrice := getCurrentPrice h.symbol
      let dollarAmount := jdiv (jmul totalAmount (some h.percentage)) (some 100)
      let quantity := jfloor (jdiv dollarAmount (some currentPrice))
      let actualTotal := jmul quantity (some currentPrice)
      ⟨h.symbol, h.percentage, quantity, currentPrice, actualTotal⟩))

def jadd : JNum → JNum → JNum
  | some a, some b => some (a + b)
  | _, _ => none

/-- The `종목 | 수량 | 가격 | 총액` buy-summary table (built identically at
the two sites that show it). -/
def etfBuySummary (prim : Prim) (holdings : List EtfDetail) : String :=
  let rows := holdings.foldl (fun acc h =>
    acc ++ h.symbol ++ " | " ++ prim.numToStr h.quantity ++ " | $" ++
      prim.toFixed2 (some h.price) ++ " | $" ++ prim.toFixed2 h.total ++ "\n") ""
  let totalCost := holdings.foldl (fun acc h => jadd acc h.total) (some 0)
  "종목 | 수량 | 가격 | 총액\n" ++ "────────────────────────\n" ++ rows ++
    "\n총합 $" ++ prim.toFixed2 totalCost ++ " 매수합니다. (y/N)"

/-- The mock ETF sell table (the direct branch hard-codes the current
prices; the interactive branch calls `getCurrentPrice` on the same
symbols, which returns those very constants). -/
def etfSellSummary (prim : Prim) : String :=
  let tbl : List (String × ℚ × ℚ × ℚ) :=
    [("QQQ", 15, 37525/100, getCurrentPrice "QQQ"),
     ("VGT", 8, 44575/100, getCurrentPrice "VGT"),
     ("ARKK", 25, 4230/100, getCurrentPrice "ARKK"),
     ("SOXX", 3, 2058/10, getCurrentPrice "SOXX")]
  let rows := tbl.foldl (fun acc h =>
    acc ++ h.1 ++ " | " ++ prim.numToStr (some h.2.1) ++ " | $" ++
      prim.toFixed2 (some h.2.2.1) ++ " | $" ++ prim.toFixed2 (some h.2.2.2) ++
      " | $" ++ prim.toFixed2 (some (h.2.1 * h.2.2.2)) ++ "\n") ""
  let totalValue := tbl.foldl (fun acc h => acc + h.2.1 * h.2.2.2) (0 : ℚ)
  "종목 | 보유수량 | 평균가격 | 현재가격 | 총액\n" ++
    "──────────────────────────────────────\n" ++ rows ++
    "\n총합 $" ++ prim.toFixed2 (some totalValue) ++ " 매도합니다. (y/N)"

/-- The prompt re-asking for a ticker or ETF name. -/
def tickerPrompt : String := ".\x7bTICKER\x7d 또는 myETF를 입력하세요:"

def cancelMsg : String := "명령이 취소되었습니다."

/-- `processInteractiveBuy`. -/
def processInteractiveBuy (prim : Prim) (command clientId : String)
    (cs : ClientStates) : String × ClientStates :=
  let parts := jsSplitSpace command
  let cmd := jsToLower (parts.headD "")
  if cmd ≠ "buy" then ("", cs)
  else
    let arg1 := parts.get? 1
    let arg2 := parts.get? 2
    let arg3 := parts.get? 3
    if parts.length > 1 ∧ jsStartsWith (arg1.getD "") "." then
      let ticker := jsToUpper (jsDrop (arg1.getD "") 1)
      let currentPrice := getCurrentPrice ticker
      if strFalsy arg2 then
        ("매수 수량:",
          csSet cs clientId { type := some true, step := 2, ticker := some ticker,
                              isETF := some false })
      else if strFalsy arg3 then
        let quantityInfo := parseQuantity prim (arg2.getD "") currentPrice
        ("매수 가격:",
          csSet cs clientId { type := some true, step := 3, ticker := some ticker,
                              quantity := jsOrNum quantityInfo.shares quantityInfo.value,
                              isETF := some false })
      else
        let quantityInfo := parseQuantity prim (arg2.getD "") currentPrice
        let price := prim.parseFloat (arg3.getD "")
        let quantity := jsOrNum quantityInfo.shares quantityInfo.value
        (ticker ++ " " ++ prim.numToStr quantity ++ "주를 $" ++
           prim.numToStr price ++ "에 매수합니다. (y/N)",
         csDelete cs clientId)
    else if parts.length > 1 ∧ (mapGet prim.etfData (arg1.getD "")).isSome then
      let etfName := arg1.getD ""
      let amount : JNum :=
        if strFalsy arg2 then none
        else prim.parseFloat (removeFirstChar '$' (arg2.getD ""))
      if jnumFalsy amount then
        ("매수 금액 ($):",
          csSet cs clientId { type := some true, step := 2, etfName := some etfName,
                              isETF := some true })
      else
        match calculateETFDetails prim etfName amount with
        | none => ("ETF " ++ etfName ++ "을 찾을 수 없습니다.", cs)
        | some holdings => (etfBuySummary prim holdings, csDelete cs clientId)
    else
      (tickerPrompt, csSet cs clientId { type := some true, step := 1 })

/-- `processInteractiveSell`. -/
def processInteractiveSell (prim : Prim) (command clientId : String)
    (cs : ClientStates) : String × ClientStates :=
  let parts := jsSplitSpace command
  let cmd := jsToLower (parts.headD "")
  if cmd ≠ "sell" then ("", cs)
  else
    let arg1 := parts.get? 1
    let arg2 := parts.get? 2
    let arg3 := parts.get? 3
    if parts.length > 1 ∧ jsStartsWith (arg1.getD "") "." then
      let ticker := jsToUpper (jsDrop (arg1.getD "") 1)
      match getPortfolioHoldings ticker with
      | none => (ticker ++ " 보유 종목이 없습니다.", cs)
      | some holdings =>
        if strFalsy arg2 then
          ("보유 수량: " ++ prim.numToStr (some holdings.quantity) ++
             "       평균 단가: $" ++ prim.toFixed2 (some holdings.avgPrice) ++
             "\n매도 수량:",
           csSet cs clientId { type := some false, step := 2, ticker := some ticker,
                               isETF := some false })
        else if arg2 = some "all" then
          let price : JNum :=
            if strFalsy arg3 then some (getCurrentPrice ticker)
            else prim.parseFloat (arg3.getD "")
          (ticker ++ " " ++ prim.numToStr (some holdings.quantity) ++ "주를 $" ++
             prim.numToStr price ++ "에 매도합니다. (y/N)",
           csDelete cs clientId)
        else if strFalsy arg3 then
          let quantity : JNum :=
            if jsEndsWith (arg2.getD "") "%" then
              jfloor (jdiv (jmul (some holdings.quantity)
                (prim.parseFloat (jsDropRight (arg2.getD "") 1))) (some 100))
            else prim.parseFloat (arg2.getD "")
          ("매도 가격:",
           csSet cs clientId { type := some false, step := 3, ticker := some ticker,
                               quantity := quantity, isETF := some false })
        else
          let quantity : JNum :=
            if jsEndsWith (arg2.getD "") "%" then
              jfloor (jdiv (jmul (some holdings.quantity)
                (prim.parseFloat (jsDropRight (arg2.getD "") 1))) (some 100))
            else prim.parseFloat (arg2.getD "")
          let price := prim.parseFloat (arg3.getD "")
          (ticker ++ " " ++ prim.numToStr quantity ++ "주를 $" ++
             prim.numToStr price ++ "에 매도합니다. (y/N)",
           csDelete cs clientId)
    else if parts.length > 1 ∧ (mapGet prim.etfData (arg1.getD "")).isSome then
      (etfSellSummary prim, csDelete cs clientId)
    else
      (tickerPrompt, csSet cs clientId { type := some false, step := 1 })

/-- `handleInteractiveResponse`. -/
def handleInteractiveResponse (prim : Prim) (input clientId : String)
    (cs : ClientStates) : String × ClientStates :=
  match csGet cs clientId with
  | none => ("", cs)
  | some state =>
    if state.type = none then ("", cs)
    else if state.isBuy then
      if state.step = 1 then
        if jsStartsWith input "." then
          let ticker := jsToUpper (jsDrop input 1)
          if ticker = "PARKPAR" then
            ("존재하지 않는 티커입니다.\n\n" ++ tickerPrompt, cs)
          else
            ("매수 수량:",
             csSet cs clientId { type := some true, step := 2, ticker := some ticker,
                                 isETF := some false })
        else if (mapGet prim.etfData input).isSome then
          ("매수 금액 ($):",
           csSet cs clientId { type := some true, step := 2, etfName := some input,
                               isETF := some true })
        else
          ("존재하지 않는 티커입니다.\n\n" ++ tickerPrompt, cs)
      else if state.step = 2 then
        if state.isETF = some true then
          let amount := prim.parseFloat (removeFirstChar '$' input)
          match calculateETFDetails prim (state.etfName.getD "") amount with
          | none =>
            ("ETF " ++ state.etfName.getD "" ++ "을 찾을 수 없습니다.",
             csDelete cs clientId)
          | some holdings => (etfBuySummary prim holdings, csDelete cs clientId)
        else
          let currentPrice := getCurrentPrice (state.ticker.getD "")
          let quantityInfo := parseQuantity prim input currentPrice
          let st3 : IState :=
            { state with step := 3,
                         quantity := jsOrNum quantityInfo.shares quantityInfo.value }
          ("매수 가격:", csSet cs clientId st3)
      else if state.step = 3 then
        let price := prim.parseFloat input
        (state.ticker.getD "" ++ " " ++ prim.numToStr state.quantity ++
           "주를 $" ++ prim.numToStr price ++ "에 매수합니다. (y/N)",
         csDelete cs clientId)
      else (cancelMsg, csDelete cs clientId)
    else
      if state.step = 1 then
        if jsStartsWith input "." then
          let ticker := jsToUpper (jsDrop input 1)
          match getPortfolioHoldings ticker with
          | none =>
            (ticker ++ " 보유 종목이 없습니다.\n\n" ++ tickerPrompt, cs)
          | some holdings =>
            ("보유 수량: " ++ prim.numToStr (some holdings.quantity) ++
               "       평균 단가: $" ++ prim.toFixed2 (some holdings.avgPrice) ++
               "\n매도 수량:",
             csSet cs clientId { type := some false, step := 2, ticker := some ticker,
                                 isETF := some false })
        else if (mapGet prim.etfData input).isSome then
          (etfSellSummary prim, csDelete cs clientId)
        else
          ("존재하지 않는 티커입니다.\n\n" ++ tickerPrompt, cs)
      else if state.step = 2 then
        let ticker := state.ticker.getD ""
        match getPortfolioHoldings ticker with
        | none => (ticker ++ " 보유 종목이 없습니다.", csDelete cs clientId)
        | some holdings =>
          let quantity : JNum :=
            if input = "all" then some holdings.quantity
            else if jsEndsWith input "%" then
              jfloor (jdiv (jmul (some holdings.quantity)
                (prim.parseFloat (jsDropRight input 1))) (some 100))
            else prim.parseFloat input
          ("매도 가격:", csSet cs clientId { state with step := 3, quantity := quantity })
      else if state.step = 3 then
        let sellPrice := prim.parseFloat input
        (state.ticker.getD "" ++ " " ++ prim.numToStr state.quantity ++
           "주를 $" ++ prim.numToStr sellPrice ++ "에 매도합니다. (y/N)",
         csDelete cs clientId)
      else (cancelMsg, csDelete cs clientId)

/-- `handleConfirmation` (y/N).  It only produces a message: the wizard
state map is not consulted and, notably, no order is created. -/
def handleConfirmation (input : String) : String :=
  let lowerInput := jsToLower input
  if lowerInput = "y" ∨ lowerInput = "yes" then "주문이 실행되었습니다."
  else if lowerInput = "n" ∨ lowerInput = "no" then "주문이 취소되었습니다."
  else ""

/-! ## Terminal command processing (part of server/routes.ts) -/

/-- Render an integer number of cents the way `Number.toFixed(2)` renders
the corresponding two-decimal value. -/
def centsToFixed2 (c : Int) : String :=
  let n := c.natAbs
  let sign := if c < 0 then "-" else ""
  let frac := n % 100
  sign ++ toString (n / 100) ++ "." ++ (if frac < 10 then "0" else "") ++
    toString frac

/-- `toFixed(2)` on a rational, as integer cents (round half away from
zero; only used for the mock change-percent computation). -/
def qToCents (q : ℚ) : Int :=
  if 0 ≤ q then ⌊q * 100 + 1/2⌋ else -⌊-q * 100 + 1/2⌋

/-- A WebSocket message as used by `broadcast` in routes.ts. -/
structure WsMsg where
  mtype : String
  order : Option Order := none
  deriving Repr, DecidableEq

/-- The state threaded through `processTerminalCommand`: the wizard map,
the `MemStorage` maps it touches, and the log of `broadcast` calls. -/
structure ServerState where
  clientStates : ClientStates
  orders : List Order
  positions : List (String × Position)
  marketData : List (String × MarketData)
  broadcasts : List WsMsg
  deriving Repr, DecidableEq

/-- `MemStorage.createOrder`: insert a fresh `pending` order (a `Map.set`
with a fresh key appends in iteration order). -/
def createOrder (orders : List Order) (accountId symbol side : String)
    (quantity : JNum) (orderType : String) (price : Option String)
    (freshId : String) (now : Nat) : List Order × Order :=
  let o : Order :=
    { id := freshId, accountId := accountId, symbol := symbol, side := side
      quantity := quantity, orderType := orderType, price := price
      status := "pending", strategyId := none, alpacaOrderId := none
      filledAt := none, createdAt := now }
  (orders ++ [o], o)

/-- `MemStorage.getPositionsByAccountId`. -/
def getPositionsByAccountId (positions : List (String × Position))
    (accountId : String) : List Position :=
  (positions.map (·.2)).filter (fun p => p.accountId = accountId)

/-- Result of the `.TICKER` branch: the rendered text, the numeric value
whose `toFixed(2)` rendering is shown on the `Price :` line (the local
variable `price` of the source), and the updated state. -/
structure DotTickerRes where
  out : String
  displayedCents : Int
  state : ServerState
  deriving Repr, DecidableEq

/-- The `.TICKER` branch of `processTerminalCommand` (lines 117-160):
use the cached market data when present, otherwise create and store a
mock entry; then render price/change and the demo account's holding. -/
def dotTicker (prim : Prim) (command : String) (st : ServerState) :
    DotTickerRes :=
  let ticker := jsToUpper (jsDrop command 1)
  let found := getMarketData st.marketData ticker
  let (marketData, st1) :=
    match found with
    | some md => (md, st)
    | none =>
      let mockPrice := prim.mockPriceCents
      let mockChange := prim.mockChangeCents
      let mockChangePercent :=
        qToCents ((mockChange : ℚ) / (mockPrice : ℚ) * 100)
      let pair := updateMarketData st.marketData ticker
        { symbol := some ticker, priceCents := some mockPrice
          changeCents := some mockChange
          changePercentCents := some mockChangePercent
          volume := some prim.mockVolume, timestamp := some prim.now }
        prim.freshId prim.now
      (pair.2, { st with marketData := pair.1 })
  let price := marketData.priceCents
  let change := marketData.changeCents
  let changePercent := marketData.changePercentCents
  let arrow := if 0 ≤ change then "▲" else "▼"
  let sign := if 0 ≤ change then "+" else ""
  let header := "=== " ++ ticker ++ " | 현재 시세 ===\n" ++
    "Price : $" ++ centsToFixed2 price ++ "  " ++ arrow ++ " " ++ sign ++
    "$" ++ centsToFixed2 (Int.natAbs change) ++ " (" ++ sign ++
    centsToFixed2 changePercent ++ "%)\n"
  let positions := getPositionsByAccountId st1.positions "demo-account-1"
  let holdingPart :=
    match positions.find? (fun p => p.symbol = ticker) with
    | some position => "\n[HOLDING]\n" ++ prim.renderHolding position price
    | none => "\n(보유 없음)"
  ⟨header ++ holdingPart, price, st1⟩

/-- The `cancel` branch of `processTerminalCommand` (lines 322-360). -/
def cancelCommand (parts : List String) (st : ServerState) :
    String × ServerState :=
  let orderId := parts.get? 1
  if strFalsy orderId then ("Usage: cancel [order_id] | cancel all", st)
  else if orderId = some "all" then
    let orders := getOrdersByAccountId st.orders "demo-account-1"
    let pendingOrders := orders.filter (fun o => o.status = "pending")
    if pendingOrders.length = 0 then ("No pending orders to cancel.", st)
    else
      let orders' := pendingOrders.foldl
        (fun os o => updateOrderStatus os o.id "cancelled") st.orders
      ("Cancelled " ++ toString pendingOrders.length ++ " pending orders.",
       { st with orders := orders' })
  else
    let oid := orderId.getD ""
    let orders := getOrdersByAccountId st.orders "demo-account-1"
    match orders.find? (fun o => jsEndsWith o.id oid ∨ o.id = oid) with
    | none => ("Order " ++ oid ++ " not found.", st)
    | some order =>
      if order.status ≠ "pending" then
        ("Order " ++ oid ++ " cannot be cancelled (status: " ++
           order.status ++ ").", st)
      else
        ("Order " ++ oid ++ " cancelled.",
         { st with orders := updateOrderStatus st.orders order.id "cancelled" })

/-- Truthiness-based `≤ 0` check: `quantity <= 0` is false for `NaN`. -/
def jle0 : JNum → Bool
  | none => false
  | some q => q ≤ 0

/-- The non-interactive `sell` branch (lines 406-458), reached when no
client id accompanies the command: create the order and broadcast it. -/
def sellCommand (prim : Prim) (parts : List String) (st : ServerState) :
    String × ServerState :=
  if parts.length < 2 then ("사용법: sell .TICKER QTY|all [LIMIT]", st)
  else
    let p1 := parts.get? 1
    let ticker :=
      if jsStartsWith (p1.getD "") "." then jsToUpper (jsDrop (p1.getD "") 1)
      else jsToUpper (p1.getD "")
    let quantityStr := parts.get? 2
    let limitPrice : JNum :=
      if strFalsy (parts.get? 3) then none
      else prim.parseFloat ((parts.get? 3).getD "")
    if ticker = "" ∨ strFalsy quantityStr then
      ("올바른 종목과 수량을 입력하세요.", st)
    else
      let qres : Option JNum :=
        if jsToLower (quantityStr.getD "") = "all" then
          match (getPositionsByAccountId st.positions "demo-account-1").find?
              (fun p => p.symbol = ticker) with
          | none => none
          | some position => some (some (position.quantity : ℚ))
        else
          let q := prim.parseInt (quantityStr.getD "")
          if jle0 q then none else some q
      match qres with
      | none =>
        if jsToLower (quantityStr.getD "") = "all" then
          (ticker ++ " 보유 종목이 없습니다.", st)
        else ("올바른 수량을 입력하세요.", st)
      | some quantity =>
        let pair := createOrder st.orders "demo-account-1" ticker "sell"
          quantity (if jnumFalsy limitPrice then "market" else "limit")
          (if jnumFalsy limitPrice then none else some (prim.numToStr limitPrice))
          prim.freshId prim.now
        let st1 := { st with orders := pair.1,
                             broadcasts := st.broadcasts ++
                               [{ mtype := "order_update", order := some pair.2 }] }
        ("요청 전송 완료.\n" ++ "  - 종목: " ++ ticker ++ "\n" ++
           "  - 수량: " ++ prim.jnumLocale quantity ++ "\n" ++
           "  - 타입: " ++
           (if jnumFalsy limitPrice then "MARKET"
            else "LIMIT @ $" ++ prim.numToStr limitPrice) ++ "\n" ++
           "  - 상태: " ++ pair.2.status, st1)

def helpText : String :=
  "[계좌]\n  accounts / acc         계좌 목록 보기\n  account [ID]           계좌 변경\n\n[기본]\n  info / list / orders / .TICKER\n\n[주문]\n  buy .T QTY [LIMIT]     주식 구매\n  sell .T all|QTY [LIMIT] 주식 판매\n  cancel [ID]            주문 취소\n  cancel all             모든 주문 취소\n\n[차트/분석]\n  chart .T [DAYS]        차트 보기\n\n[기타]\n  help / quit"

def accountsText : String :=
  "=== AVAILABLE ACCOUNTS ===\n\nLive Account:\n  live-account-1 (LIVE) - $25,430.50\n\nPaper Accounts:\n* paper-account-1 (PAPER) - $100,000.00\n  paper-account-2 (PAPER) - $50,000.00\n  paper-account-3 (PAPER) - $75,000.00\n\n* = Current active account\n\nUse: account [account_id] to switch"

def diagText : String :=
  "--- System Diagnostics ---\nTrading Mode  : PAPER\nQuote Source  : STOOQ\n\n[Alpaca Configuration]\nEndpoint      : https://paper-api.alpaca.markets\nAPI Key       : PK76S...C6CZ\nMarket URL    : https://data.alpaca.markets\nData Feed     : IEX\n\n[Alpaca Connection Status]\nConnection    : 성공 (계좌 ID: PA123456789)\nAccount Status: ACTIVE\n------------------------"

/-- The `account` alias map and switch message. -/
def accountSwitchText (parts : List String) : String :=
  match parts.get? 1 with
  | none => "Usage: account [live|paper1|paper2|paper3]"
  | some accountAlias =>
    if accountAlias = "" then "Usage: account [live|paper1|paper2|paper3]"
    else
      let accountId :=
        if accountAlias = "live" then some "live-account-1"
        else if accountAlias = "paper1" then some "paper-account-1"
        else if accountAlias = "paper2" then some "paper-account-2"
        else if accountAlias = "paper3" then some "paper-account-3"
        else none
      match accountId with
      | none => "Invalid account: " ++ accountAlias ++
          "\nValid accounts: live, paper1, paper2, paper3"
      | some aid => "Switched to account: " ++ aid ++ " (" ++ accountAlias ++ ")"

/-- `processTerminalCommand` (lines 87-602): dispatch in source order.
Branches that only render state (`info`, `portfolio`, `list`, `orders`,
`chart`) leave every map untouched in the source; their display strings
are abstracted through `Prim`. -/
def processTerminalCommand (prim : Prim) (command : String)
    (clientId : Option String) (st : ServerState) : String × ServerState :=
  if command = "" then ("", st)
  else
    let parts := jsSplitSpace command
    let cmd := jsToLower (parts.headD "")
    let interactive :=
      match clientId with
      | some cid => handleInteractiveResponse prim command cid st.clientStates
      | none => ("", st.clientStates)
    if interactive.1 ≠ "" then
      (interactive.1, { st with clientStates := interactive.2 })
    else if cmd = "buy" ∧ clientId.isSome then
      let r := processInteractiveBuy prim command (clientId.getD "") st.clientStates
      (r.1, { st with clientStates := r.2 })
    else if cmd = "sell" ∧ clientId.isSome then
      let r := processInteractiveSell prim command (clientId.getD "") st.clientStates
      (r.1, { st with clientStates := r.2 })
    else if clientId.isSome ∧ (cmd = "y" ∨ cmd = "yes" ∨ cmd = "n" ∨ cmd = "no") then
      (handleConfirmation command, st)
    else if jsStartsWith cmd "." ∧ 1 < jsLength cmd then
      let r := dotTicker prim command st
      (r.out, r.state)
    else if cmd = "help" ∨ cmd = "?" then (helpText, st)
    else if cmd = "live" then ("!!! LIVE TRADING ENABLED !!!", st)
    else if cmd = "paper" then ("PAPER TRADING MODE", st)
    else if cmd = "info" then (prim.renderInfo, st)
    else if cmd = "portfolio" then (prim.renderPortfolio, st)
    else if cmd = "list" then (prim.renderList, st)
    else if cmd = "orders" then (prim.renderOrdersList, st)
    else if cmd = "cancel" then cancelCommand parts st
    else if cmd = "accounts" ∨ cmd = "acc" then (accountsText, st)
    else if cmd = "account" then (accountSwitchText parts, st)
    else if cmd = "buy" then
      ("대화형 매수 명령을 사용하세요. \"buy\"만 입력하십시오.", st)
    else if cmd = "sell" then sellCommand prim parts st
    else if cmd = "chart" then (prim.renderChart, st)
    else if cmd = "source" then
      ("시세 소스: " ++ jsToUpper (if strFalsy (parts.get? 1)
        then "current: STOOQ" else jsToLower ((parts.get? 1).getD "")), st)
    else if cmd = "feed" then
      ("데이터 피드: " ++ jsToUpper (if strFalsy (parts.get? 1)
        then "current: IEX" else jsToLower ((parts.get? 1).getD "")), st)
    else if cmd = "diag" then (diagText, st)
    else if cmd = "reload" then ("설정 재적용 완료.", st)
    else if cmd = "quit" then ("WealthCommander 종료", st)
    else ("알 수 없는 명령어: " ++ cmd ++
      "\n도움말을 보려면 'help'를 입력하세요.", st)

/-- Feed a sequence of terminal commands from one client, keeping the
last response (the client-server loop of the WebSocket handler). -/
def runCommands (prim : Prim) (cmds : List String) (clientId : Option String)
    (st : ServerState) : String × ServerState :=
  cmds.foldl (fun acc c => processTerminalCommand prim c clientId acc.2) ("", st)

/-! ## WebSocket broadcast fan-out (routes.ts lines 69-84) -/

/-- `ws.readyState` values. -/
inductive ReadyState where
  | CONNECTING
  | OPEN
  | CLOSING
  | CLOSED
  deriving Repr, DecidableEq

/-- What `ws.send` transmits: the message object augmented with a
timestamp before `JSON.stringify`. -/
structure WireMsg where
  msg : WsMsg
  timestamp : Nat
  deriving Repr, DecidableEq

/-- `broadcast`: walk `wsClients` and `send` to every connection whose
`readyState` is `OPEN`. -/
def broadcastSends (clients : List (String × ReadyState)) (m : WsMsg)
    (ts : Nat) : List (String × WireMsg) :=
  match clients with
  | [] => []
  | (id, s) :: rest =>
    if s = ReadyState.OPEN then (id, ⟨m, ts⟩) :: broadcastSends rest m ts
    else broadcastSends rest m ts

/-- `broadcast` as a state transformer: it reads the client map, never
writes it, and produces the list of performed sends. -/
def broadcastWs (clients : List (String × ReadyState)) (m : WsMsg)
    (ts : Nat) : List (String × ReadyState) × List (String × WireMsg) :=
  (clients, broadcastSends clients m ts)

/-! ## Authentication (server/auth.ts and POST /api/login) -/

/-- A user record from `data/users.json`. -/
structure AuthUser where
  id : String
  username : String
  email : String
  passwordHash : String
  role : String
  loginAttempts : Nat
  lockedUntil : Option Nat
  lastLogin : Option Nat
  deriving Repr, DecidableEq

/-- The password-less projection the service hands back on success
(restricted to the fields the login route returns). -/
structure PubUser where
  id : String
  username : String
  email : String
  role : String
  deriving Repr, DecidableEq

def AuthUser.pub (u : AuthUser) : PubUser :=
  ⟨u.id, u.username, u.email, u.role⟩

structure AuthResult where
  success : Bool
  user : Option PubUser := none
  message : String
  deriving Repr, DecidableEq

/-- Replace the first list element satisfying `p` by `f` of it (the
source mutates the object found by `Array.find` and saves the array). -/
def updateFirst {α : Type} (p : α → Bool) (f : α → α) : List α → List α
  | [] => []
  | x :: xs => if p x then f x :: xs else x :: updateFirst p f xs

/-- `AuthService.authenticateUser`.  `compare` stands for
`bcrypt.compare`, `fmtTime` for the Korean locale rendering of the
unlock time, `now` for the clock; `maxLoginAttempts = 5` and the
lockout lasts 15 minutes (900000 ms). -/
def authenticateUser (compare : String → String → Bool)
    (fmtTime : Nat → String) (now : Nat) (users : List AuthUser)
    (username password : String) : List AuthUser × AuthResult :=
  match users.find? (fun u => u.username = username) with
  | none =>
    (users, { success := false,
              message := "사용자명 또는 비밀번호가 올바르지 않습니다." })
  | some user =>
    if user.lockedUntil.isSome ∧ now < user.lockedUntil.getD 0 then
      (users, { success := false,
                message := "계정이 잠겨있습니다. 잠금 해제 시간: " ++
                  fmtTime (user.lockedUntil.getD 0) })
    else if ¬ compare password user.passwordHash then
      let attempts := user.loginAttempts + 1
      let user' :=
        if 5 ≤ attempts then
          { user with loginAttempts := 0,
                      lockedUntil := some (now + 900000) }
        else { user with loginAttempts := attempts }
      let users' := updateFirst (fun u => u.username = username)
        (fun _ => user') users
      let remainingAttempts := 5 - user'.loginAttempts
      if 0 < remainingAttempts then
        (users', { success := false,
                   message := "사용자명 또는 비밀번호가 올바르지 않습니다. (남은 시도: " ++
                     toString remainingAttempts ++ "회)" })
      else
        (users', { success := false,
                   message := "로그인 시도 횟수를 초과했습니다. 계정이 15분간 잠겼습니다." })
    else
      let user' := { user with loginAttempts := 0, lockedUntil := none,
                               lastLogin := some now }
      let users' := updateFirst (fun u => u.username = username)
        (fun _ => user') users
      (users', { success := true, user := some user.pub,
                 message := "로그인 성공" })

/-- The express session fields the login route touches. -/
structure Session where
  userId : Option String := none
  username : Option String := none
  deriving Repr, DecidableEq

/-- Outcome of `POST /api/login`: HTTP status and the user object of a
success body. -/
structure LoginResp where
  status : Nat
  respUser : Option PubUser := none
  deriving Repr, DecidableEq

/-- `app.post("/api/login")` (routes.ts lines 666-698): a falsy
(`undefined` or empty) username or password is rejected with 400; then
`authenticateUser` decides between a 200 that populates the session and
a 401 that leaves it alone. -/
def loginRoute (compare : String → String → Bool)
    (fmtTime : Nat → String) (now : Nat)
    (username password : Option String) (session : Session)
    (users : List AuthUser) :
    LoginResp × Session × List AuthUser :=
  if strFalsy username ∨ strFalsy password then
    ({ status := 400 }, session, users)
  else
    let r := authenticateUser compare fmtTime now users
      (username.getD "") (password.getD "")
    match r.2.user, r.2.success with
    | some u, true =>
      ({ status := 200, respUser := some u },
       { userId := some u.id, username := some u.username }, r.1)
    | _, _ => ({ status := 401 }, session, r.1)

/-! ## Strategy scheduler (TMF Test, routes.ts lines 1189-1433)

The `setTimeout` machinery is made explicit: the state records, per
strategy name, the status map, the `activeTimeouts` queue and the
`currentRound` closure variable; a step fires one pending timer. -/

structure StratStatus where
  isRunning : Bool
  completedRounds : Option Nat := none
  totalRounds : Option Nat := none
  deriving Repr, DecidableEq

/-- A pending `setTimeout` callback of the TMF Test strategy: the
10-second sell timeout or the 2-second next-round timeout. -/
inductive TmfTimer where
  | sellT
  | nextT
  deriving Repr, DecidableEq

/-- An order as created by the strategy code paths (projected to the
fields the strategy fixes), tagged with the strategy that created it. -/
structure TmfOrder where
  strategy : String
  side : String
  symbol : String
  quantity : Nat
  orderType : String
  deriving Repr, DecidableEq

structure StratState where
  orders : List TmfOrder
  statuses : List (String × StratStatus)
  activeTimeouts : List (String × TmfTimer)
  rounds : List (String × Nat)
  broadcasts : List String
  deriving Repr, DecidableEq

/-- `executeRound`: bump the round, record the status, create the buy
order and schedule the sell timeout (`maxRounds = 5`, 5 TMF shares). -/
def executeRound (name : String) (s : StratState) : StratState :=
  let currentRound := (mapGet s.rounds name).getD 0
  if 5 ≤ currentRound then
    { s with broadcasts := s.broadcasts ++ ["strategy_completed"] }
  else
    let r := currentRound + 1
    let runningStatus : StratStatus :=
      { isRunning := true, completedRounds := some (r - 1), totalRounds := some 5 }
    let buyOrder : TmfOrder := ⟨name, "buy", "TMF", 5, "market"⟩
    let s1 := { s with
      rounds := mapSet s.rounds name r
      statuses := mapSet s.statuses name runningStatus
      broadcasts := s.broadcasts ++ ["terminal_output"] }
    { s1 with
      orders := s1.orders ++ [buyOrder]
      broadcasts := s1.broadcasts ++
        ["order_update", "terminal_output", "terminal_output"]
      activeTimeouts := s1.activeTimeouts ++ [(name, TmfTimer.sellT)] }

/-- The sell timeout body: bail out unless the status still says
running, create the sell order, then either schedule the next round or
mark the strategy completed. -/
def fireSell (name : String) (s : StratState) : StratState :=
  if ¬ (((mapGet s.statuses name).map (·.isRunning)).getD false) then s
  else
    let sellOrder : TmfOrder := ⟨name, "sell", "TMF", 5, "market"⟩
    let doneStatus : StratStatus :=
      { isRunning := false, completedRounds := some 5, totalRounds := some 5 }
    let s1 := { s with
      orders := s.orders ++ [sellOrder]
      broadcasts := s.broadcasts ++ ["order_update", "terminal_output"] }
    let currentRound := (mapGet s1.rounds name).getD 0
    if currentRound < 5 then
      { s1 with
        broadcasts := s1.broadcasts ++ ["terminal_output"]
        activeTimeouts := s1.activeTimeouts ++ [(name, TmfTimer.nextT)] }
    else
      { s1 with
        statuses := mapSet s1.statuses name doneStatus
        broadcasts := s1.broadcasts ++
          ["strategy_completed", "strategy_status_update"] }

def fireTimer (name : String) : TmfTimer → StratState → StratState
  | TmfTimer.sellT => fireSell name
  | TmfTimer.nextT => executeRound name

/-- Fire the pending timer at queue index `i` (no-op when out of
range). -/
def stepAt (i : Nat) (s : StratState) : StratState :=
  match s.activeTimeouts.get? i with
  | none => s
  | some (name, t) =>
    fireTimer name t { s with activeTimeouts := s.activeTimeouts.eraseIdx i }

/-- Fire a whole sequence of timers. -/
def stepsSeq : List Nat → StratState → StratState
  | [], s => s
  | i :: is, s => stepsSeq is (stepAt i s)

/-- `POST /api/strategy/start` for `TMF Test`: reset the timeout list
and the round counter, mark the strategy running, run the first round
synchronously, then broadcast `strategy_executed`. -/
def tmfStart (name : String) (s : StratState) : StratState :=
  let startStatus : StratStatus :=
    { isRunning := true, completedRounds := some 0, totalRounds := some 5 }
  let s1 := { s with
    activeTimeouts := s.activeTimeouts.filter (fun p => p.1 ≠ name)
    statuses := mapSet s.statuses name startStatus
    rounds := mapSet s.rounds name 0 }
  let s2 := executeRound name s1
  { s2 with broadcasts := s2.broadcasts ++ ["strategy_executed"] }

/-- `POST /api/strategy/stop`: clear every pending timeout of the
strategy, flip `isRunning` off when a status exists, and broadcast. -/
def stopStrategy (name : String) (s : StratState) : StratState :=
  let s1 := { s with
    activeTimeouts := s.activeTimeouts.filter (fun p => p.1 ≠ name) }
  let s2 :=
    match mapGet s1.statuses name with
    | some currentStatus =>
      let stopped : StratStatus := { currentStatus with isRunning := false }
      { s1 with statuses := mapSet s1.statuses name stopped }
    | none => s1
  { s2 with broadcasts := s2.broadcasts ++
      ["strategy_stopped", "strategy_status_update"] }

/-- The status `GET /api/strategy/status` reports: the stored entry or
the `isRunning: false` default. -/
def reportedStatus (name : String) (s : StratState) : StratStatus :=
  (mapGet s.statuses name).getD { isRunning := false }

/-- The orders a given strategy run has created. -/
def ordersOf (name : String) (s : StratState) : List TmfOrder :=
  s.orders.filter (fun o => o.strategy = name)

/-! ## Concrete fixtures used by witnesses

These are not translations of source code: they instantiate the
abstracted primitives (`bcrypt`, `parseFloat`, display rendering, the
users file) so that the theorems below can be evaluated on concrete
inputs. -/

/-- A tiny stand-in for `parseFloat`/`parseInt` that accepts plain digit
strings (enough for the concrete runs below) and yields `NaN`
otherwise. -/
def parseDecimalDigits (s : String) : JNum :=
  (s.toNat?).map (fun n => (n : ℚ))

def defaultPrim : Prim :=
  { etfData := []
    parseFloat := parseDecimalDigits
    parseInt := parseDecimalDigits
    numToStr := fun _ => "#"
    toFixed2 := fun _ => "#"
    localeNum := fun _ => "#"
    renderInfo := ""
    renderPortfolio := ""
    renderList := ""
    renderOrdersList := ""
    renderChart := ""
    renderHolding := fun _ _ => ""
    jnumLocale := fun _ => "#"
    freshId := "id-1"
    now := 0
    mockPriceCents := 15000
    mockChangeCents := 250
    mockVolume := 1000 }

def emptyServerState : ServerState := ⟨[], [], [], [], []⟩

/-- A store with one pending and one filled order of the demo account,
for evaluating the cancel branch. -/
def c9Store : ServerState :=
  ⟨[],
   [⟨"ord-1", "demo-account-1", "AAPL", "buy", some 1, "market", none,
      "pending", none, none, none, 0⟩,
    ⟨"ord-2", "demo-account-1", "TSLA", "sell", some 2, "market", none,
      "filled", none, none, none, 1⟩],
   [], [], []⟩

/-- The state reached by starting a "TMF Test" run on an empty strategy
state and letting every pending timer fire, oldest first (nine firings:
round 1 buy is executed by `tmfStart` itself, then each `stepAt 0`
fires the front timer, alternating sell and next-round buy). -/
def tmfFinal : StratState :=
  stepsSeq (List.replicate 9 0) (tmfStart "TMF Test" ⟨[], [], [], [], []⟩)

/-- A server state whose only wizard entry is a buy flow at step 2, for
evaluating the wizard invariants. -/
def c4Store : ServerState :=
  ⟨[("c1", { type := some true, step := 2, ticker := some "AAPL",
             isETF := some false })], [], [], [], []⟩

/-- A `bcrypt.compare` stand-in whose fixture hashes equal the
passwords. -/
def demoCompare (password hash : String) : Bool := password == hash

def demoAuthUsers : List AuthUser :=
  [{ id := "u1", username := "demo", email := "demo@example.com"
     passwordHash := "demo123", role := "admin", loginAttempts := 0
     lockedUntil := none, lastLogin := none }]

/-! ## Specification predicates for the wizard state machine -/

/-- A well-formed stored wizard entry: its type is buy or sell and its
step is 1, 2 or 3. -/
def wfEntry (e : IState) : Prop :=
  (e.type = some true ∨ e.type = some false) ∧
    (e.step = 1 ∨ e.step = 2 ∨ e.step = 3)

instance (e : IState) : Decidable (wfEntry e) := by
  unfold wfEntry
  infer_instance

/-- Every stored entry of the client-state map is well formed. -/
def WFStates (cs : ClientStates) : Prop := ∀ p ∈ cs, wfEntry p.2

instance (cs : ClientStates) : Decidable (WFStates cs) := by
  unfold WFStates
  infer_instance

/-- An output that ends a flow: a confirmation prompt, the cancellation
message, or an unrecoverable error (`no holdings` / `not found` without
the re-prompt suffix). -/
def finalOutput (out : String) : Prop :=
  jsEndsWith out "(y/N)" = true ∨ out = cancelMsg ∨
    jsEndsWith out "보유 종목이 없습니다." = true ∨
    jsEndsWith out "을 찾을 수 없습니다." = true

instance (out : String) : Decidable (finalOutput out) := by
  unfold finalOutput
  infer_instance

/-! ## Helper lemmas -/

theorem mapGet_mapSet_self {β : Type} (m : List (String × β)) (k : String)
    (v : β) : mapGet (mapSet m k v) k = some v := by
  simp [mapGet, mapSet, List.find?]

theorem find?_filter_of_imp {α : Type} (l : List α) (p q : α → Bool)
    (h : ∀ x, p x = true → q x = true) :
    (l.filter q).find? p = l.find? p := by
  induction l with
  | nil => rfl
  | cons x xs ih =>
    by_cases hq : q x = true
    · by_cases hp : p x = true
      · simp [List.filter_cons, hq, List.find?_cons, hp]
      · simp only [Bool.not_eq_true] at hp
        simp [List.filter_cons, hq, List.find?_cons, hp, ih]
    · have hp : p x = false := by
        cases hpx : p x
        · rfl
        · exact absurd (h x hpx) hq
      simp only [Bool.not_eq_true] at hq
      simp [List.filter_cons, hq, List.find?_cons, hp, ih]

theorem mapGet_mapSet_ne {β : Type} (m : List (String × β)) (k k' : String)
    (v : β) (h : k' ≠ k) : mapGet (mapSet m k v) k' = mapGet m k' := by
  simp only [mapGet, mapSet]
  rw [List.find?_cons_of_neg _ (by simp [Ne.symm h])]
  rw [find?_filter_of_imp]
  intro x hx
  simp only [decide_eq_true_eq] at hx ⊢
  rw [hx]
  exact h

/-- `ordersOf` ignores an appended order of a different strategy. -/
theorem ordersOf_append_other (name : String) (s : StratState)
    (o : TmfOrder) (orders' : List TmfOrder) (h : o.strategy ≠ name)
    (hs : s.orders = orders' ++ [o]) :
    s.orders.filter (fun x => x.strategy = name) =
      orders'.filter (fun x => x.strategy = name) := by
  simp [hs, List.filter_append, h]

/-- Firing a timer of a different strategy neither creates orders of
`name` nor schedules timers of `name`. -/
theorem fireTimer_frame (name m : String) (t : TmfTimer) (s : StratState)
    (hm : m ≠ name)
    (hP : ∀ p ∈ s.activeTimeouts, p.1 ≠ name) :
    ordersOf name (fireTimer m t s) = ordersOf name s ∧
    ∀ p ∈ (fireTimer m t s).activeTimeouts, p.1 ≠ name := by
  cases t with
  | sellT =>
    simp only [fireTimer, fireSell]
    split
    · exact ⟨rfl, hP⟩
    · split
      · constructor
        · simp [ordersOf, List.filter_append, hm]
        · intro p hp
          rcases List.mem_append.mp hp with h' | h'
          · exact hP p h'
          · simp at h'
            simp [h', hm]
      · constructor
        · simp [ordersOf, List.filter_append, hm]
        · intro p hp
          exact hP p hp
  | nextT =>
    simp only [fireTimer, executeRound]
    split
    · exact ⟨rfl, hP⟩
    · constructor
      · simp [ordersOf, List.filter_append, hm]
      · intro p hp
        rcases List.mem_append.mp hp with h' | h'
        · exact hP p h'
        · simp at h'
          simp [h', hm]

/-- One scheduler step preserves "no timers and no new orders" for a
strategy whose timers are all gone. -/
theorem stepAt_frame (name : String) (i : Nat) (s : StratState)
    (hP : ∀ p ∈ s.activeTimeouts, p.1 ≠ name) :
    ordersOf name (stepAt i s) = ordersOf name s ∧
    ∀ p ∈ (stepAt i s).activeTimeouts, p.1 ≠ name := by
  simp only [stepAt]
  cases hg : s.activeTimeouts.get? i with
  | none => exact ⟨rfl, hP⟩
  | some pt =>
    obtain ⟨m, t⟩ := pt
    have hmem : (m, t) ∈ s.activeTimeouts := List.get?_mem hg
    have hm : m ≠ name := hP _ hmem
    have hP' : ∀ p ∈ (s.activeTimeouts.eraseIdx i), p.1 ≠ name := by
      intro p hp
      exact hP p ((List.eraseIdx_sublist _ i).mem hp)
    exact fireTimer_frame name m t _ hm hP'

/-- Iterating scheduler steps after all the strategy's timers are gone
never creates an order of that strategy. -/
theorem stepsSeq_frame (name : String) (steps : List Nat) (s : StratState)
    (hP : ∀ p ∈ s.activeTimeouts, p.1 ≠ name) :
    ordersOf name (stepsSeq steps s) = ordersOf name s := by
  induction steps generalizing s with
  | nil => rfl
  | cons i is ih =>
    have h := stepAt_frame name i s hP
    simpa [stepsSeq, h.1] using ih (stepAt i s) h.2

theorem strAppendAssoc (a b c : String) : (a ++ b) ++ c = a ++ (b ++ c) :=
  String.append_assoc a b c

/-- `authenticateUser` either fails with no user, or succeeds returning
exactly the projection of the record found under the username. -/
theorem authenticateUser_spec (compare : String → String → Bool)
    (fmtTime : Nat → String) (now : Nat) (users : List AuthUser)
    (u p : String) :
    ((authenticateUser compare fmtTime now users u p).2.success = true ∧
      (authenticateUser compare fmtTime now users u p).2.user =
        (users.find? (fun x => x.username = u)).map AuthUser.pub ∧
      (users.find? (fun x => x.username = u)).isSome = true) ∨
    ((authenticateUser compare fmtTime now users u p).2.success = false ∧
      (authenticateUser compare fmtTime now users u p).2.user = none) := by
  cases hf : users.find? (fun x => x.username = u) with
  | none => right; simp [authenticateUser, hf]
  | some au =>
    simp only [authenticateUser, hf]
    split
    · right
      exact ⟨rfl, rfl⟩
    · split
      · right
        refine ⟨?_, ?_⟩ <;> (repeat' split) <;> rfl
      · left
        simp

/-- Folding `updateOrder(id, {status: 'cancelled'})` over a batch of
orders cancels exactly the ids of the batch. -/
theorem foldl_updateOrderStatus (ps : List Order) (os : List Order) :
    ps.foldl (fun acc o => updateOrderStatus acc o.id "cancelled") os =
      os.map (fun o =>
        if o.id ∈ ps.map (fun q => q.id) then { o with status := "cancelled" }
        else o) := by
  induction ps generalizing os with
  | nil => simp
  | cons p ps ih =>
    simp only [List.foldl_cons]
    rw [ih]
    simp only [updateOrderStatus, List.map_map]
    congr 1
    funext o
    by_cases h : o.id = p.id
    · simp [Function.comp, h]
    · simp [Function.comp, h]

/-- Membership in the pending batch of `cancel all` characterises the
orders of the demo account that are pending. -/
theorem mem_pendingIds_iff (orders : List Order)
    (hNodup : (orders.map (fun o => o.id)).Nodup) (o : Order)
    (ho : o ∈ orders) :
    o.id ∈ (((getOrdersByAccountId orders "demo-account-1").filter
        (fun x => x.status = "pending")).map (fun q => q.id)) ↔
      (o.accountId = "demo-account-1" ∧ o.status = "pending") := by
  have hperm : List.Perm (getOrdersByAccountId orders "demo-account-1")
      (orders.filter (fun x => x.accountId = "demo-account-1")) :=
    List.mergeSort_perm _ _
  constructor
  · intro hid
    obtain ⟨q, hq, hqid⟩ := List.mem_map.mp hid
    have hq2 := List.mem_filter.mp hq
    have hq3 := List.mem_filter.mp (hperm.mem_iff.mp hq2.1)
    have hqo : q = o :=
      List.inj_on_of_nodup_map hNodup hq3.1 ho hqid
    subst hqo
    exact ⟨by simpa using hq3.2, by simpa using hq2.2⟩
  · intro ⟨hacct, hpend⟩
    apply List.mem_map.mpr
    refine ⟨o, ?_, rfl⟩
    apply List.mem_filter.mpr
    refine ⟨?_, by simpa using hpend⟩
    apply hperm.mem_iff.mpr
    exact List.mem_filter.mpr ⟨ho, by simpa using hacct⟩

/-! ## Claim theorems -/

/-- C2: a TMF Test strategy run that is never stopped performs exactly 5
rounds, each round creating one market buy order for 5 TMF shares and
then one market sell order for 5 TMF shares (10 orders total); in the
final, quiescent state the status has `isRunning = false`,
`completedRounds = 5` and `totalRounds = 5`. -/
theorem claim_C2 :
    tmfFinal.orders =
      [⟨"TMF Test", "buy", "TMF", 5, "market"⟩,
       ⟨"TMF Test", "sell", "TMF", 5, "market"⟩,
       ⟨"TMF Test", "buy", "TMF", 5, "market"⟩,
       ⟨"TMF Test", "sell", "TMF", 5, "market"⟩,
       ⟨"TMF Test", "buy", "TMF", 5, "market"⟩,
       ⟨"TMF Test", "sell", "TMF", 5, "market"⟩,
       ⟨"TMF Test", "buy", "TMF", 5, "market"⟩,
       ⟨"TMF Test", "sell", "TMF", 5, "market"⟩,
       ⟨"TMF Test", "buy", "TMF", 5, "market"⟩,
       ⟨"TMF Test", "sell", "TMF", 5, "market"⟩] ∧
    reportedStatus "TMF Test" tmfFinal =
      { isRunning := false, completedRounds := some 5, totalRounds := some 5 } ∧
    tmfFinal.activeTimeouts = [] ∧ stepAt 0 tmfFinal = tmfFinal := by
  decide

/-- C3: after `POST /api/strategy/stop` for a strategy name, all of that
strategy's scheduled timeouts are cleared, its (reported) status has
`isRunning = false`, and no matter which pending timers fire afterwards,
no order attributable to that strategy is ever created. -/
theorem claim_C3 (s : StratState) (name : String) (steps : List Nat) :
    (stopStrategy name s).activeTimeouts.filter (fun p => p.1 = name) = [] ∧
    (reportedStatus name (stopStrategy name s)).isRunning = false ∧
    ordersOf name (stepsSeq steps (stopStrategy name s)) =
      ordersOf name (stopStrategy name s) := by
  have hto : (stopStrategy name s).activeTimeouts =
      s.activeTimeouts.filter (fun p => p.1 ≠ name) := by
    simp only [stopStrategy]
    split <;> rfl
  refine ⟨?_, ?_, ?_⟩
  · rw [hto, List.filter_filter]
    apply List.filter_eq_nil_iff.mpr
    intro p _
    simp
  · simp only [reportedStatus, stopStrategy]
    cases hg2 : mapGet s.statuses name with
    | none => simp [hg2]
    | some st => simp [hg2, mapGet_mapSet_self]
  · apply stepsSeq_frame
    rw [hto]
    intro p hp
    have := List.of_mem_filter hp
    simpa using this

/-- C8: `broadcast(message)` hands the timestamp-augmented message to
exactly those registered WebSocket clients whose `readyState` is `OPEN`;
every other client receives nothing and the client map is unchanged. -/
theorem claim_C8 (clients : List (String × ReadyState)) (m : WsMsg)
    (ts : Nat) (hNodup : (clients.map (·.1)).Nodup) :
    (broadcastWs clients m ts).1 = clients ∧
    (broadcastWs clients m ts).2 =
      (clients.filter (fun p => p.2 = ReadyState.OPEN)).map
        (fun p => (p.1, ⟨m, ts⟩)) ∧
    (∀ id w, (id, w) ∈ (broadcastWs clients m ts).2 →
      (id, ReadyState.OPEN) ∈ clients ∧ w = ⟨m, ts⟩) ∧
    (∀ id rs, (id, rs) ∈ clients → rs ≠ ReadyState.OPEN →
      ∀ w, (id, w) ∉ (broadcastWs clients m ts).2) := by
  have hsends : ∀ (l : List (String × ReadyState)),
      broadcastSends l m ts =
        (l.filter (fun p => p.2 = ReadyState.OPEN)).map
          (fun p => (p.1, ⟨m, ts⟩)) := by
    intro l
    induction l with
    | nil => rfl
    | cons x xs ih =>
      by_cases hx : x.2 = ReadyState.OPEN
      · simp only [broadcastSends, List.filter_cons]
        simp [hx, ih]
      · simp only [broadcastSends, List.filter_cons]
        simp [hx, ih]
  refine ⟨rfl, hsends clients, ?_, ?_⟩
  · intro id w hw
    simp only [broadcastWs, hsends clients, List.mem_map, List.mem_filter] at hw
    obtain ⟨p, ⟨hmem, hopen⟩, heq⟩ := hw
    simp only [Prod.mk.injEq] at heq
    simp only [decide_eq_true_eq] at hopen
    refine ⟨?_, heq.2.symm⟩
    have : p = (id, ReadyState.OPEN) := by
      cases p
      simp_all
    exact this ▸ hmem
  · intro id rs hmem hrs w hw
    simp only [broadcastWs, hsends clients, List.mem_map, List.mem_filter] at hw
    obtain ⟨p, ⟨hpmem, hopen⟩, heq⟩ := hw
    simp only [Prod.mk.injEq] at heq
    simp only [decide_eq_true_eq] at hopen
    have hpid : p.1 = id := heq.1
    have hinj := List.inj_on_of_nodup_map hNodup
    have heq2 : ((id, rs) : String × ReadyState) = p :=
      hinj hmem hpmem (by simpa using hpid.symm)
    have hrs2 : rs = p.2 := by rw [← heq2]
    exact hrs (hrs2 ▸ hopen)

/-- C8 witness: one open and one closed client; only the open one is
reached. -/
theorem claim_C8_witness :
    (broadcastWs [("a", ReadyState.OPEN), ("b", ReadyState.CLOSED)]
        ⟨"order_update", none⟩ 7).2 =
      [("a", ⟨⟨"order_update", none⟩, 7⟩)] := by
  have h := claim_C8 [("a", ReadyState.OPEN), ("b", ReadyState.CLOSED)]
    ⟨"order_update", none⟩ 7 (by decide)
  rw [h.2.1]
  rfl

/-- C10 counterexample: `updatePosition` lets the partial update override
the `accountId` that formed the storage key, so the stored position's
`accountId` differs from the argument. -/
theorem claim_C10_counterexample :
    ((getPosition
        (updatePosition [] "A" "S" { accountId := some "B" } "p1" 0).1
        "A" "S").map (fun p => p.accountId)) = some "B" ∧
      ("B" : String) ≠ "A" := by
  constructor
  · rfl
  · decide

/-- C10 (amended): after `updatePosition(accountId, symbol, updates)`,
`getPosition(accountId, symbol)` returns the freshly stored position;
provided the update does not itself set `accountId` or `symbol` and any
pre-existing entry under the key carries the key's own `accountId` and
`symbol`, those stored fields equal the arguments. -/
theorem claim_C10 (positions : List (String × Position))
    (accountId symbol freshId : String) (now : Nat)
    (updates : PartialPosition)
    (h1 : updates.accountId = none) (h2 : updates.symbol = none)
    (h3 : ∀ e, mapGet positions (accountId ++ "-" ++ symbol) = some e →
      e.accountId = accountId ∧ e.symbol = symbol) :
    getPosition (updatePosition positions accountId symbol updates freshId now).1
        accountId symbol =
      some (updatePosition positions accountId symbol updates freshId now).2 ∧
    (updatePosition positions accountId symbol updates freshId now).2.accountId
      = accountId ∧
    (updatePosition positions accountId symbol updates freshId now).2.symbol
      = symbol := by
  refine ⟨?_, ?_, ?_⟩
  · simp only [updatePosition, getPosition]
    exact mapGet_mapSet_self _ _ _
  · simp only [updatePosition, h1, Option.getD_none]
    cases hg : mapGet positions (accountId ++ "-" ++ symbol) with
    | none => simp [hg]
    | some e => simp [hg, (h3 e hg).1]
  · simp only [updatePosition, h2, Option.getD_none]
    cases hg : mapGet positions (accountId ++ "-" ++ symbol) with
    | none => simp [hg]
    | some e => simp [hg, (h3 e hg).2]

/-- C10 witness: a fresh store, an update touching neither key field. -/
theorem claim_C10_witness :
    getPosition (updatePosition [] "A" "S" { quantity := some 3 } "p1" 0).1
        "A" "S" =
      some (updatePosition [] "A" "S" { quantity := some 3 } "p1" 0).2 ∧
    (updatePosition [] "A" "S" { quantity := some 3 } "p1" 0).2.accountId = "A" ∧
    (updatePosition [] "A" "S" { quantity := some 3 } "p1" 0).2.symbol = "S" :=
  claim_C10 [] "A" "S" "p1" 0 { quantity := some 3 } rfl rfl
    (by intro e h; simp [mapGet] at h)

/-- C1: the interactive buy flow run to completion — `buy`, ticker,
quantity, price, then confirmation `y` — answers that the order was
executed, yet creates no order record and broadcasts nothing: the
confirmation handler's "Execute the trade" branch only returns a
message.  This evaluates the embedded command pipeline at that failing
input. -/
theorem claim_C1 :
    (runCommands defaultPrim ["buy", ".AAPL", "10", "175", "y"]
        (some "client-1") emptyServerState).1 = "주문이 실행되었습니다." ∧
    (runCommands defaultPrim ["buy", ".AAPL", "10", "175", "y"]
        (some "client-1") emptyServerState).2.orders = [] ∧
    (runCommands defaultPrim ["buy", ".AAPL", "10", "175", "y"]
        (some "client-1") emptyServerState).2.broadcasts = [] := by
  refine ⟨?_, ?_, ?_⟩ <;> rfl

/-- C6: for the `.TICKER` command, a cached market-data entry is
returned unmodified, a missing one is created from the mock values and
stored; afterwards an entry for the ticker always exists and the
rendered `Price :` line shows exactly that entry's price. -/
theorem claim_C6 (prim : Prim) (command : String) (st : ServerState) :
    (∀ md, getMarketData st.marketData (jsToUpper (jsDrop command 1)) = some md →
      (dotTicker prim command st).state = st ∧
      (dotTicker prim command st).displayedCents = md.priceCents) ∧
    (getMarketData st.marketData (jsToUpper (jsDrop command 1)) = none →
      ∃ md', getMarketData (dotTicker prim command st).state.marketData
          (jsToUpper (jsDrop command 1)) = some md' ∧
        md'.priceCents = prim.mockPriceCents ∧
        (dotTicker prim command st).displayedCents = md'.priceCents) ∧
    (∃ md', getMarketData (dotTicker prim command st).state.marketData
        (jsToUpper (jsDrop command 1)) = some md' ∧
      (dotTicker prim command st).displayedCents = md'.priceCents) ∧
    (∃ rest, (dotTicker prim command st).out =
      "=== " ++ jsToUpper (jsDrop command 1) ++ " | 현재 시세 ===\n" ++
        "Price : $" ++ centsToFixed2 (dotTicker prim command st).displayedCents
        ++ rest) := by
  cases hg : getMarketData st.marketData (jsToUpper (jsDrop command 1)) with
  | some md =>
    refine ⟨?_, ?_, ?_, ?_⟩
    · intro md' hmd'
      cases hmd'
      exact ⟨by simp [dotTicker, hg], by simp [dotTicker, hg]⟩
    · intro hnone
      exact absurd hnone (by simp)
    · exact ⟨md, by simp [dotTicker, hg], by simp [dotTicker, hg]⟩
    · simp only [dotTicker, hg]
      simp only [strAppendAssoc]
      exact ⟨_, rfl⟩
  | none =>
    have hlook : ∀ (data : PartialMarketData) (fid : String) (t : Nat),
        getMarketData (updateMarketData st.marketData
          (jsToUpper (jsDrop command 1)) data fid t).1 (jsToUpper (jsDrop command 1)) =
        some (updateMarketData st.marketData
          (jsToUpper (jsDrop command 1)) data fid t).2 := by
      intro data fid t
      simp only [updateMarketData, getMarketData]
      exact mapGet_mapSet_self _ _ _
    have hdisp : (dotTicker prim command st).displayedCents =
        prim.mockPriceCents := by
      simp [dotTicker, hg, updateMarketData]
    have hstate : (dotTicker prim command st).state.marketData =
        (updateMarketData st.marketData (jsToUpper (jsDrop command 1))
          { symbol := some (jsToUpper (jsDrop command 1))
            priceCents := some prim.mockPriceCents
            changeCents := some prim.mockChangeCents
            changePercentCents := some (qToCents
              ((prim.mockChangeCents : ℚ) / (prim.mockPriceCents : ℚ) * 100))
            volume := some prim.mockVolume
            timestamp := some prim.now } prim.freshId prim.now).1 := by
      simp [dotTicker, hg]
    have hentry : (updateMarketData st.marketData (jsToUpper (jsDrop command 1))
          { symbol := some (jsToUpper (jsDrop command 1))
            priceCents := some prim.mockPriceCents
            changeCents := some prim.mockChangeCents
            changePercentCents := some (qToCents
              ((prim.mockChangeCents : ℚ) / (prim.mockPriceCents : ℚ) * 100))
            volume := some prim.mockVolume
            timestamp := some prim.now } prim.freshId prim.now).2.priceCents =
        prim.mockPriceCents := by
      simp [updateMarketData, hg]
    refine ⟨?_, ?_, ?_, ?_⟩
    · intro md' hmd'
      cases hmd'
    · intro _
      refine ⟨_, by rw [hstate]; exact hlook _ _ _, hentry, ?_⟩
      rw [hdisp, hentry]
    · refine ⟨_, by rw [hstate]; exact hlook _ _ _, ?_⟩
      rw [hdisp, hentry]
    · simp only [dotTicker, hg]
      simp only [strAppendAssoc]
      exact ⟨_, rfl⟩

/-- C6 witness: a cached AAPL entry (price $123.45) is displayed and
left unmodified; the conclusion is read off `claim_C6` at that input. -/
theorem claim_C6_witness :
    (dotTicker defaultPrim ".aapl"
        ⟨[], [], [],
         [("AAPL", ⟨"m1", "AAPL", 12345, 10, 8, 5, 0⟩)], []⟩).state =
      ⟨[], [], [], [("AAPL", ⟨"m1", "AAPL", 12345, 10, 8, 5, 0⟩)], []⟩ ∧
    (dotTicker defaultPrim ".aapl"
        ⟨[], [], [],
         [("AAPL", ⟨"m1", "AAPL", 12345, 10, 8, 5, 0⟩)], []⟩).displayedCents =
      12345 :=
  (claim_C6 defaultPrim ".aapl"
      ⟨[], [], [], [("AAPL", ⟨"m1", "AAPL", 12345, 10, 8, 5, 0⟩)], []⟩).1
    ⟨"m1", "AAPL", 12345, 10, 8, 5, 0⟩ (by rfl)

/-- C7: `POST /api/login` rejects missing credentials with 400; with
credentials present it sets the session's user id and username and
returns the authenticated user's id, username, email and role exactly
when `authService.authenticateUser` succeeds, and answers 401 leaving
the session without a user id when authentication fails. -/
theorem claim_C7 (compare : String → String → Bool)
    (fmtTime : Nat → String) (now : Nat)
    (username password : Option String) (session : Session)
    (users : List AuthUser) (hs : session.userId = none) :
    (username = none ∨ password = none →
      (loginRoute compare fmtTime now username password session users).1.status
        = 400) ∧
    (∀ u p, username = some u → password = some p → u ≠ "" → p ≠ "" →
      ((authenticateUser compare fmtTime now users u p).2.success = true →
        (loginRoute compare fmtTime now username password session users).1.status
            = 200 ∧
        (authenticateUser compare fmtTime now users u p).2.user =
          (users.find? (fun x => x.username = u)).map AuthUser.pub ∧
        (users.find? (fun x => x.username = u)).isSome ∧
        (loginRoute compare fmtTime now username password session users).1.respUser
          = (authenticateUser compare fmtTime now users u p).2.user ∧
        (loginRoute compare fmtTime now username password session users).2.1.userId
          = ((authenticateUser compare fmtTime now users u p).2.user).map (·.id) ∧
        (loginRoute compare fmtTime now username password session users).2.1.username
          = ((authenticateUser compare fmtTime now users u p).2.user).map (·.username)) ∧
      ((authenticateUser compare fmtTime now users u p).2.success = false →
        (loginRoute compare fmtTime now username password session users).1.status
            = 401 ∧
        (loginRoute compare fmtTime now username password session users).2.1
          = session ∧
        (loginRoute compare fmtTime now username password session users).2.1.userId
          = none)) := by
  constructor
  · intro h
    rcases h with h | h <;> simp [loginRoute, h, strFalsy]
  · intro u p hu hp hu0 hp0
    subst hu
    subst hp
    have hcond : ¬ (strFalsy (some u) = true ∨ strFalsy (some p) = true) := by
      simp [strFalsy, hu0, hp0]
    rcases authenticateUser_spec compare fmtTime now users u p with
      ⟨hS, hU, hF⟩ | ⟨hS, hU⟩
    · refine ⟨fun _ => ?_, fun hfail => by rw [hS] at hfail; cases hfail⟩
      cases hff : users.find? (fun x => x.username = u) with
      | none => rw [hff] at hF; simp at hF
      | some au =>
        rw [hff] at hU
        have hU2 : (authenticateUser compare fmtTime now users u p).2.user
            = some au.pub := hU
        refine ⟨?_, ?_, ?_, ?_, ?_, ?_⟩
        · simp [loginRoute, hcond, hU2, hS]
        · simp [hff, hU2]
        · simp [hff]
        · simp [loginRoute, hcond, hU2, hS]
        · simp [loginRoute, hcond, hU2, hS]
        · simp [loginRoute, hcond, hU2, hS]
    · constructor
      · intro hsucc
        rw [hS] at hsucc
        cases hsucc
      · intro _
        refine ⟨?_, ?_, ?_⟩ <;> simp [loginRoute, hcond, hU, hS, hs]

/-- C7 witness: the demo user logs in successfully; read off
`claim_C7` at that concrete input. -/
theorem claim_C7_witness :
    (loginRoute demoCompare (fun _ => "") 0 (some "demo") (some "demo123")
        ⟨none, none⟩ demoAuthUsers).1.status = 200 ∧
    (loginRoute demoCompare (fun _ => "") 0 (some "demo") (some "demo123")
        ⟨none, none⟩ demoAuthUsers).2.1.userId = some "u1" := by
  have h := (claim_C7 demoCompare (fun _ => "") 0 (some "demo")
      (some "demo123") ⟨none, none⟩ demoAuthUsers rfl).2
      "demo" "demo123" rfl rfl (by decide) (by decide)
  have hsucc : (authenticateUser demoCompare (fun _ => "") 0 demoAuthUsers
      "demo" "demo123").2.success = true := by rfl
  obtain ⟨h200, _, _, _, huid, _⟩ := h.1 hsucc
  exact ⟨h200, by rw [huid]; rfl⟩

/-- `cancel all` unfolded. -/
theorem cancelCommand_all (st : ServerState) :
    cancelCommand ["cancel", "all"] st =
      (let pendingOrders := (getOrdersByAccountId st.orders
          "demo-account-1").filter (fun o => o.status = "pending")
       let orders' := pendingOrders.foldl
         (fun os o => updateOrderStatus os o.id "cancelled") st.orders
       if pendingOrders.length = 0 then ("No pending orders to cancel.", st)
       else ("Cancelled " ++ toString pendingOrders.length ++
               " pending orders.", { st with orders := orders' })) := rfl

/-- `cancel ID` unfolded, for a non-empty id other than `all`. -/
theorem cancelCommand_id (oid : String) (st : ServerState)
    (h1 : oid ≠ "all") (h2 : oid ≠ "") :
    cancelCommand ["cancel", oid] st =
      (match (getOrdersByAccountId st.orders "demo-account-1").find?
          (fun o => jsEndsWith o.id oid ∨ o.id = oid) with
       | none => ("Order " ++ oid ++ " not found.", st)
       | some order =>
         if order.status ≠ "pending" then
           ("Order " ++ oid ++ " cannot be cancelled (status: " ++
              order.status ++ ").", st)
         else
           let orders' := updateOrderStatus st.orders order.id "cancelled"
           ("Order " ++ oid ++ " cancelled.",
            { st with orders := orders' })) := by
  simp only [cancelCommand, List.get?]
  rw [if_neg (by simp [strFalsy, h2]), if_neg (by simp [h1])]
  simp only [Option.getD_some]

/-- C9: `cancel all` flips exactly the demo account's pending orders to
`cancelled` (everything else untouched) and reports their count;
`cancel ID` cancels the (first) order whose id equals or ends with `ID`
only when it is pending, and otherwise reports an error leaving the
store unchanged. -/
theorem claim_C9 (st : ServerState)
    (hNodup : (st.orders.map (fun o => o.id)).Nodup) :
    ((cancelCommand ["cancel", "all"] st).2.orders =
        st.orders.map (fun o =>
          if o.accountId = "demo-account-1" ∧ o.status = "pending"
          then { o with status := "cancelled" } else o) ∧
      (cancelCommand ["cancel", "all"] st).1 =
        (if ((st.orders.filter (fun o => o.accountId = "demo-account-1")).filter
              (fun o => o.status = "pending")).length = 0
         then "No pending orders to cancel."
         else "Cancelled " ++
           toString ((st.orders.filter
               (fun o => o.accountId = "demo-account-1")).filter
               (fun o => o.status = "pending")).length ++
             " pending orders.")) ∧
    (∀ oid, oid ≠ "all" → oid ≠ "" →
      ((∀ o ∈ st.orders, o.accountId = "demo-account-1" →
          ¬ (jsEndsWith o.id oid = true ∨ o.id = oid)) →
        cancelCommand ["cancel", oid] st =
          ("Order " ++ oid ++ " not found.", st)) ∧
      (∀ m, (getOrdersByAccountId st.orders "demo-account-1").find?
            (fun o => jsEndsWith o.id oid ∨ o.id = oid) = some m →
        (m.status ≠ "pending" →
          cancelCommand ["cancel", oid] st =
            ("Order " ++ oid ++ " cannot be cancelled (status: " ++
               m.status ++ ").", st)) ∧
        (m.status = "pending" →
          m ∈ st.orders ∧ m.accountId = "demo-account-1" ∧
          (jsEndsWith m.id oid = true ∨ m.id = oid) ∧
          { m with status := "cancelled" } ∈
            (cancelCommand ["cancel", oid] st).2.orders ∧
          (∀ o ∈ st.orders, o.id ≠ m.id →
            o ∈ (cancelCommand ["cancel", oid] st).2.orders) ∧
          (∀ o' ∈ (cancelCommand ["cancel", oid] st).2.orders,
            o' ∈ st.orders ∨ o' = { m with status := "cancelled" }) ∧
          (cancelCommand ["cancel", oid] st).1 =
            "Order " ++ oid ++ " cancelled."))) := by
  have hperm : List.Perm (getOrdersByAccountId st.orders "demo-account-1")
      (st.orders.filter (fun x => x.accountId = "demo-account-1")) :=
    List.mergeSort_perm _ _
  have hlen : ((getOrdersByAccountId st.orders "demo-account-1").filter
      (fun o => o.status = "pending")).length =
      ((st.orders.filter (fun o => o.accountId = "demo-account-1")).filter
        (fun o => o.status = "pending")).length :=
    (hperm.filter _).length_eq
  constructor
  · rw [cancelCommand_all]
    by_cases h0 : ((getOrdersByAccountId st.orders "demo-account-1").filter
        (fun o => o.status = "pending")).length = 0
    · rw [if_pos h0]
      constructor
      · have hnil : ∀ o ∈ st.orders,
            (if o.accountId = "demo-account-1" ∧ o.status = "pending"
             then { o with status := "cancelled" } else o) = o := by
          intro o ho
          apply if_neg
          rintro ⟨ha, hp⟩
          have hempty := List.length_eq_zero.mp h0
          have homem : o ∈ (getOrdersByAccountId st.orders
              "demo-account-1").filter (fun o => o.status = "pending") := by
            apply List.mem_filter.mpr
            refine ⟨?_, by simpa using hp⟩
            exact hperm.mem_iff.mpr
              (List.mem_filter.mpr ⟨ho, by simpa using ha⟩)
          rw [hempty] at homem
          cases homem
        rw [List.map_congr_left hnil]
        simp
      · rw [if_pos (hlen ▸ h0)]
    · rw [if_neg h0]
      constructor
      · show ((getOrdersByAccountId st.orders "demo-account-1").filter
            (fun o => o.status = "pending")).foldl
            (fun os o => updateOrderStatus os o.id "cancelled") st.orders = _
        rw [foldl_updateOrderStatus]
        apply List.map_congr_left
        intro o ho
        by_cases hc : o.accountId = "demo-account-1" ∧ o.status = "pending"
        · rw [if_pos ((mem_pendingIds_iff st.orders hNodup o ho).mpr hc),
              if_pos hc]
        · rw [if_neg (fun hin =>
              hc ((mem_pendingIds_iff st.orders hNodup o ho).mp hin)),
              if_neg hc]
      · rw [if_neg (hlen ▸ h0), hlen]
  · intro oid ho1 ho2
    constructor
    · intro hnone
      rw [cancelCommand_id oid st ho1 ho2]
      have hfind : (getOrdersByAccountId st.orders "demo-account-1").find?
          (fun o => jsEndsWith o.id oid ∨ o.id = oid) = none := by
        apply List.find?_eq_none.mpr
        intro a ha
        have ha2 := List.mem_filter.mp (hperm.mem_iff.mp ha)
        have := hnone a ha2.1 (by simpa using ha2.2)
        simpa using this
      rw [hfind]
    · intro m hm
      have hpm := List.find?_some hm
      have hmem := List.mem_of_find?_eq_some hm
      have hmem2 := List.mem_filter.mp (hperm.mem_iff.mp hmem)
      have hmo : m ∈ st.orders := hmem2.1
      have hacct : m.accountId = "demo-account-1" := by simpa using hmem2.2
      have hcond : jsEndsWith m.id oid = true ∨ m.id = oid := by
        simpa using hpm
      constructor
      · intro hst
        rw [cancelCommand_id oid st ho1 ho2, hm]
        simp only [if_pos hst]
      · intro hpend
        have hnn : ¬ (m.status ≠ "pending") := by simp [hpend]
        have hred : cancelCommand ["cancel", oid] st =
            ("Order " ++ oid ++ " cancelled.",
             { st with orders := updateOrderStatus st.orders m.id "cancelled" }) := by
          rw [cancelCommand_id oid st ho1 ho2, hm]
          simp only [if_neg hnn]
        refine ⟨hmo, hacct, hcond, ?_, ?_, ?_, ?_⟩
        · rw [hred]
          simp only [updateOrderStatus]
          exact List.mem_map.mpr ⟨m, hmo, by simp⟩
        · intro o ho hne
          rw [hred]
          simp only [updateOrderStatus]
          exact List.mem_map.mpr ⟨o, ho, by simp [hne]⟩
        · intro o' ho'
          rw [hred] at ho'
          simp only [updateOrderStatus, List.mem_map] at ho'
          obtain ⟨o, ho, hfo⟩ := ho'
          by_cases hid : o.id = m.id
          · right
            have hom : o = m :=
              List.inj_on_of_nodup_map hNodup ho hmo hid
            rw [← hfo, if_pos hid, hom]
          · left
            rw [← hfo, if_neg hid]
            exact ho
        · rw [hred]

/-- C9 witness: in a store with one pending and one filled order,
`cancel all` cancels exactly the pending one and reports a count of 1. -/
theorem claim_C9_witness :
    (cancelCommand ["cancel", "all"] c9Store).1 =
      "Cancelled 1 pending orders." ∧
    (cancelCommand ["cancel", "all"] c9Store).2.orders =
      [⟨"ord-1", "demo-account-1", "AAPL", "buy", some 1, "market", none,
         "cancelled", none, none, none, 0⟩,
       ⟨"ord-2", "demo-account-1", "TSLA", "sell", some 2, "market", none,
         "filled", none, none, none, 1⟩] := by
  have h := (claim_C9 c9Store (by decide)).1
  constructor
  · rw [h.2]
    decide
  · rw [h.1]
    decide

/-! ## Wizard state-machine lemmas (for C4 and C5) -/

theorem mem_of_csGet (cs : ClientStates) (a : String) (e : IState)
    (h : csGet cs a = some e) : (a, e) ∈ cs := by
  simp only [csGet, mapGet, Option.map_eq_some'] at h
  obtain ⟨p, hp, hpe⟩ := h
  have hmem := List.mem_of_find?_eq_some hp
  have hpa := List.find?_some hp
  simp only [decide_eq_true_eq] at hpa
  have : p = (a, e) := by
    cases p
    simp_all
  exact this ▸ hmem

theorem csGet_set_self (cs : ClientStates) (a : String) (v : IState) :
    csGet (csSet cs a v) a = some v :=
  mapGet_mapSet_self cs a v

theorem csGet_set_ne (cs : ClientStates) (a b : String) (v : IState)
    (h : b ≠ a) : csGet (csSet cs a v) b = csGet cs b :=
  mapGet_mapSet_ne cs a b v h

theorem csGet_delete_self (cs : ClientStates) (a : String) :
    csGet (csDelete cs a) a = none := by
  simp only [csGet, csDelete, mapGet]
  rw [List.find?_eq_none.mpr]
  · rfl
  · intro p hp
    have := List.of_mem_filter hp
    simpa using this

theorem csGet_delete_ne (cs : ClientStates) (a b : String) (h : b ≠ a) :
    csGet (csDelete cs a) b = csGet cs b := by
  simp only [csGet, csDelete, mapGet]
  rw [find?_filter_of_imp]
  intro x hx
  simp only [decide_eq_true_eq] at hx ⊢
  rw [hx]
  exact h

theorem WFStates_set (cs : ClientStates) (a : String) (v : IState)
    (hwf : WFStates cs) (hv : wfEntry v) : WFStates (csSet cs a v) := by
  intro p hp
  rcases List.mem_cons.mp hp with h | h
  · rw [h]
    exact hv
  · exact hwf p (List.mem_of_mem_filter h)

theorem WFStates_delete (cs : ClientStates) (a : String)
    (hwf : WFStates cs) : WFStates (csDelete cs a) := by
  intro p hp
  exact hwf p (List.mem_of_mem_filter hp)

theorem append_ne_empty_right (a b : String) (hb : b ≠ "") : a ++ b ≠ "" := by
  intro h
  apply hb
  have hdata : a.data ++ b.data = [] := by
    have := congrArg String.data h
    simpa [String.data_append] using this
  have : b.data = [] := (List.append_eq_nil.mp hdata).2
  cases b
  simp_all

theorem suffix_append_cases (s ts xs : List Char) :
    s <:+ (xs ++ ts) → s <:+ ts ∨ ts <:+ s := by
  induction xs with
  | nil => intro h; left; exact h
  | cons x xs ih =>
    intro h
    rcases h with ⟨u, hu⟩
    cases u with
    | nil =>
      right
      exact ⟨x :: xs, by simpa using hu.symm⟩
    | cons y ys =>
      apply ih
      refine ⟨ys, ?_⟩
      have h2 := hu
      simp only [List.cons_append, List.cons.injEq] at h2
      exact h2.2

theorem jsEndsWith_append_false (x t s : String)
    (h1 : jsEndsWith t s = false) (h2 : jsEndsWith s t = false) :
    jsEndsWith (x ++ t) s = false := by
  cases hc : jsEndsWith (x ++ t) s with
  | false => rfl
  | true =>
    exfalso
    have hsuf : s.toList <:+ (x ++ t).toList := by
      simpa [jsEndsWith, List.isSuffixOf_iff_suffix] using hc
    have hdata : (x ++ t).toList = x.toList ++ t.toList := by
      simp [String.toList, String.data_append]
    rw [hdata] at hsuf
    rcases suffix_append_cases s.toList t.toList x.toList hsuf with h | h
    · rw [show jsEndsWith t s = true by
        simpa [jsEndsWith, List.isSuffixOf_iff_suffix] using h] at h1
      cases h1
    · rw [show jsEndsWith s t = true by
        simpa [jsEndsWith, List.isSuffixOf_iff_suffix] using h] at h2
      cases h2

theorem eq_append_imp_endsWith (x t c : String) (h : x ++ t = c) :
    jsEndsWith c t = true := by
  rw [← h]
  have hdata : (x ++ t).toList = x.toList ++ t.toList := by
    simp [String.toList, String.data_append]
  simp only [jsEndsWith, List.isSuffixOf_iff_suffix, hdata]
  exact List.suffix_append x.toList t.toList

/-- The four final-output shapes all fail on an output whose concrete
tail `t` is incompatible with each of them. -/
theorem finalOutput_append_false (x t : String)
    (h1 : jsEndsWith t "(y/N)" = false) (h2 : jsEndsWith "(y/N)" t = false)
    (h3 : jsEndsWith cancelMsg t = false)
    (h4 : jsEndsWith t "보유 종목이 없습니다." = false)
    (h5 : jsEndsWith "보유 종목이 없습니다." t = false)
    (h6 : jsEndsWith t "을 찾을 수 없습니다." = false)
    (h7 : jsEndsWith "을 찾을 수 없습니다." t = false) :
    ¬ finalOutput (x ++ t) := by
  intro hf
  rcases hf with hf | hf | hf | hf
  · rw [jsEndsWith_append_false x t _ h1 h2] at hf
    cases hf
  · have := eq_append_imp_endsWith x t cancelMsg hf
    rw [h3] at this
    cases this
  · rw [jsEndsWith_append_false x t _ h4 h5] at hf
    cases hf
  · rw [jsEndsWith_append_false x t _ h6 h7] at hf
    cases hf

/-- A transition that keeps the map unchanged and emits a non-final,
non-empty output satisfies the wizard invariant. -/
theorem hir_leaf_unchanged (cs : ClientStates) (a : String) (e : IState)
    (hwf : WFStates cs) (hget : csGet cs a = some e) (O : String)
    (hO : O ≠ "") (hF : ¬ finalOutput O) :
    O ≠ "" ∧ WFStates cs ∧
    (∀ e', csGet cs a = some e' → e.step ≤ e'.step) ∧
    (finalOutput O → csGet cs a = none) :=
  ⟨hO, hwf,
   fun _ h' => by rw [hget] at h'; cases h'; exact le_refl _,
   fun hf => absurd hf hF⟩

/-- A transition that overwrites the client's entry with a well-formed
entry of no smaller step satisfies the wizard invariant. -/
theorem hir_leaf_set (cs : ClientStates) (a : String) (e : IState)
    (hwf : WFStates cs) (O : String) (v : IState) (hv : wfEntry v)
    (hO : O ≠ "") (hF : ¬ finalOutput O) (hle : e.step ≤ v.step) :
    O ≠ "" ∧ WFStates (csSet cs a v) ∧
    (∀ e', csGet (csSet cs a v) a = some e' → e.step ≤ e'.step) ∧
    (finalOutput O → csGet (csSet cs a v) a = none) :=
  ⟨hO, WFStates_set cs a v hwf hv,
   fun _ h' => by rw [csGet_set_self] at h'; cases h'; exact hle,
   fun hf => absurd hf hF⟩

/-- A transition that deletes the client's entry satisfies the wizard
invariant whatever it outputs. -/
theorem hir_leaf_delete (cs : ClientStates) (a : String) (e : IState)
    (hwf : WFStates cs) (O : String) (hO : O ≠ "") :
    O ≠ "" ∧ WFStates (csDelete cs a) ∧
    (∀ e', csGet (csDelete cs a) a = some e' → e.step ≤ e'.step) ∧
    (finalOutput O → csGet (csDelete cs a) a = none) := by
  refine ⟨hO, WFStates_delete cs a hwf, ?_, fun _ => csGet_delete_self cs a⟩
  intro e' h'
  rw [csGet_delete_self] at h'
  cases h'

/-- `handleInteractiveResponse` on a client with a well-formed stored
entry: it answers with a non-empty output, preserves well-formedness,
never decreases the client's step, and deletes the entry whenever the
output is final. -/
theorem hir_spec (prim : Prim) (input a : String) (cs : ClientStates)
    (hwf : WFStates cs) (e : IState) (hget : csGet cs a = some e) :
    (handleInteractiveResponse prim input a cs).1 ≠ "" ∧
    WFStates (handleInteractiveResponse prim input a cs).2 ∧
    (∀ e', csGet (handleInteractiveResponse prim input a cs).2 a = some e' →
      e.step ≤ e'.step) ∧
    (finalOutput (handleInteractiveResponse prim input a cs).1 →
      csGet (handleInteractiveResponse prim input a cs).2 a = none) := by
  have hwfe : wfEntry e := hwf (a, e) (mem_of_csGet cs a e hget)
  obtain ⟨htype, hstep⟩ := hwfe
  rcases htype with hb | hsell
  · have hbuy : e.isBuy = true := by simp [IState.isBuy, hb]
    have htn : ¬ (e.type = none) := by simp [hb]
    simp only [handleInteractiveResponse, hget]
    rw [if_neg htn, if_pos hbuy]
    rcases hstep with h1 | h2 | h3
    · rw [if_pos h1]
      by_cases hdot : jsStartsWith input "." = true
      · rw [if_pos hdot]
        by_cases hpark : jsToUpper (jsDrop input 1) = "PARKPAR"
        · rw [if_pos hpark]
          refine hir_leaf_unchanged cs a e hwf hget _ ?_ ?_
          · exact (by decide : ("존재하지 않는 티커입니다.\n\n" ++ tickerPrompt) ≠ "")
          · exact (by decide : ¬ finalOutput ("존재하지 않는 티커입니다.\n\n" ++ tickerPrompt))
        · rw [if_neg hpark]
          refine hir_leaf_set cs a e hwf _ _ ?_ ?_ ?_ ?_
          · simp [wfEntry]
          · exact (by decide : ("매수 수량:" : String) ≠ "")
          · exact (by decide : ¬ finalOutput "매수 수량:")
          · simp [h1]
      · rw [if_neg hdot]
        by_cases hetf : (mapGet prim.etfData input).isSome = true
        · rw [if_pos hetf]
          refine hir_leaf_set cs a e hwf _ _ ?_ ?_ ?_ ?_
          · simp [wfEntry]
          · exact (by decide : ("매수 금액 ($):" : String) ≠ "")
          · exact (by decide : ¬ finalOutput "매수 금액 ($):")
          · simp [h1]
        · rw [if_neg hetf]
          refine hir_leaf_unchanged cs a e hwf hget _ ?_ ?_
          · exact (by decide : ("존재하지 않는 티커입니다.\n\n" ++ tickerPrompt) ≠ "")
          · exact (by decide : ¬ finalOutput ("존재하지 않는 티커입니다.\n\n" ++ tickerPrompt))
    · rw [if_neg (by rw [h2]; decide), if_pos h2]
      by_cases hE : e.isETF = some true
      · rw [if_pos hE]
        cases hc : calculateETFDetails prim (e.etfName.getD "")
            (prim.parseFloat (removeFirstChar '$' input)) with
        | none =>
          refine hir_leaf_delete cs a e hwf _ ?_
          exact append_ne_empty_right _ _ (by decide)
        | some holdings =>
          refine hir_leaf_delete cs a e hwf _ ?_
          simp only [etfBuySummary]
          exact append_ne_empty_right _ _ (by decide)
      · rw [if_neg hE]
        refine hir_leaf_set cs a e hwf _ _ ?_ ?_ ?_ ?_
        · simp [wfEntry, hb]
        · exact (by decide : ("매수 가격:" : String) ≠ "")
        · exact (by decide : ¬ finalOutput "매수 가격:")
        · simp [h2]
    · rw [if_neg (by rw [h3]; decide), if_neg (by rw [h3]; decide),
          if_pos h3]
      refine hir_leaf_delete cs a e hwf _ ?_
      exact append_ne_empty_right _ _ (by decide)
  · have hbuy : ¬ (e.isBuy = true) := by simp [IState.isBuy, hsell]
    have htn : ¬ (e.type = none) := by simp [hsell]
    simp only [handleInteractiveResponse, hget]
    rw [if_neg htn, if_neg hbuy]
    rcases hstep with h1 | h2 | h3
    · rw [if_pos h1]
      by_cases hdot : jsStartsWith input "." = true
      · rw [if_pos hdot]
        cases hh : getPortfolioHoldings (jsToUpper (jsDrop input 1)) with
        | none =>
          refine hir_leaf_unchanged cs a e hwf hget _ ?_ ?_
          · exact append_ne_empty_right _ _ (by decide)
          · exact finalOutput_append_false _ tickerPrompt (by decide)
              (by decide) (by decide) (by decide) (by decide) (by decide)
              (by decide)
        | some holdings =>
          refine hir_leaf_set cs a e hwf _ _ ?_ ?_ ?_ ?_
          · simp [wfEntry]
          · exact append_ne_empty_right _ _ (by decide)
          · exact finalOutput_append_false _ "\n매도 수량:" (by decide)
              (by decide) (by decide) (by decide) (by decide) (by decide)
              (by decide)
          · simp [h1]
      · rw [if_neg hdot]
        by_cases hetf : (mapGet prim.etfData input).isSome = true
        · rw [if_pos hetf]
          refine hir_leaf_delete cs a e hwf _ ?_
          simp only [etfSellSummary]
          exact append_ne_empty_right _ _ (by decide)
        · rw [if_neg hetf]
          refine hir_leaf_unchanged cs a e hwf hget _ ?_ ?_
          · exact (by decide : ("존재하지 않는 티커입니다.\n\n" ++ tickerPrompt) ≠ "")
          · exact (by decide : ¬ finalOutput ("존재하지 않는 티커입니다.\n\n" ++ tickerPrompt))
    · rw [if_neg (by rw [h2]; decide), if_pos h2]
      cases hh : getPortfolioHoldings (e.ticker.getD "") with
      | none =>
        refine hir_leaf_delete cs a e hwf _ ?_
        exact append_ne_empty_right _ _ (by decide)
      | some holdings =>
        refine hir_leaf_set cs a e hwf _ _ ?_ ?_ ?_ ?_
        · simp [wfEntry, hsell]
        · exact (by decide : ("매도 가격:" : String) ≠ "")
        · exact (by decide : ¬ finalOutput "매도 가격:")
        · simp [h2]
    · rw [if_neg (by rw [h3]; decide), if_neg (by rw [h3]; decide),
          if_pos h3]
      refine hir_leaf_delete cs a e hwf _ ?_
      exact append_ne_empty_right _ _ (by decide)

/-- `processInteractiveBuy` for a client with no stored entry: the
invariant holds and a final output leaves no entry. -/
theorem pib_spec (prim : Prim) (command a : String) (cs : ClientStates)
    (hwf : WFStates cs) (hget : csGet cs a = none) :
    WFStates (processInteractiveBuy prim command a cs).2 ∧
    (finalOutput (processInteractiveBuy prim command a cs).1 →
      csGet (processInteractiveBuy prim command a cs).2 a = none) := by
  simp only [processInteractiveBuy]
  repeat' split
  all_goals first
    | exact ⟨hwf, fun _ => hget⟩
    | exact ⟨WFStates_delete _ _ hwf, fun _ => csGet_delete_self _ _⟩
    | refine ⟨WFStates_set _ _ _ hwf (by simp [wfEntry]), fun hf => absurd hf ?_⟩
  all_goals first
    | exact (by decide : ¬ finalOutput "매수 수량:")
    | exact (by decide : ¬ finalOutput "매수 가격:")
    | exact (by decide : ¬ finalOutput "매수 금액 ($):")
    | exact (by decide : ¬ finalOutput tickerPrompt)

/-- `processInteractiveSell` for a client with no stored entry. -/
theorem pis_spec (prim : Prim) (command a : String) (cs : ClientStates)
    (hwf : WFStates cs) (hget : csGet cs a = none) :
    WFStates (processInteractiveSell prim command a cs).2 ∧
    (finalOutput (processInteractiveSell prim command a cs).1 →
      csGet (processInteractiveSell prim command a cs).2 a = none) := by
  simp only [processInteractiveSell]
  repeat' split
  all_goals first
    | exact ⟨hwf, fun _ => hget⟩
    | exact ⟨WFStates_delete _ _ hwf, fun _ => csGet_delete_self _ _⟩
    | refine ⟨WFStates_set _ _ _ hwf (by simp [wfEntry]), fun hf => absurd hf ?_⟩
  all_goals first
    | exact (by decide : ¬ finalOutput "매도 가격:")
    | exact (by decide : ¬ finalOutput tickerPrompt)
    | exact finalOutput_append_false _ "\n매도 수량:" (by decide) (by decide)
        (by decide) (by decide) (by decide) (by decide) (by decide)

/-- A blank interactive answer means the client had no stored entry. -/
theorem hir_empty_imp (prim : Prim) (input a : String) (cs : ClientStates)
    (hwf : WFStates cs)
    (h : (handleInteractiveResponse prim input a cs).1 = "") :
    csGet cs a = none := by
  cases hget : csGet cs a with
  | none => rfl
  | some e => exact absurd h (hir_spec prim input a cs hwf e hget).1

/-- The interactive handler never touches another client's entry. -/
theorem hir_frame (prim : Prim) (input a b : String) (cs : ClientStates)
    (hb : b ≠ a) :
    csGet (handleInteractiveResponse prim input a cs).2 b = csGet cs b := by
  have hset : ∀ (cs' : ClientStates) (v : IState),
      csGet (csSet cs' a v) b = csGet cs' b :=
    fun cs' v => csGet_set_ne cs' a b v hb
  have hdel : ∀ cs' : ClientStates, csGet (csDelete cs' a) b = csGet cs' b :=
    fun cs' => csGet_delete_ne cs' a b hb
  unfold handleInteractiveResponse
  repeat (any_goals (first | split | simp [hset, hdel]))

/-- `processInteractiveBuy` never touches another client's entry. -/
theorem pib_frame (prim : Prim) (command a b : String) (cs : ClientStates)
    (hb : b ≠ a) :
    csGet (processInteractiveBuy prim command a cs).2 b = csGet cs b := by
  have hset : ∀ (cs' : ClientStates) (v : IState),
      csGet (csSet cs' a v) b = csGet cs' b :=
    fun cs' v => csGet_set_ne cs' a b v hb
  have hdel : ∀ cs' : ClientStates, csGet (csDelete cs' a) b = csGet cs' b :=
    fun cs' => csGet_delete_ne cs' a b hb
  unfold processInteractiveBuy
  repeat (any_goals (first | split | simp [hset, hdel]))

/-- `processInteractiveSell` never touches another client's entry. -/
theorem pis_frame (prim : Prim) (command a b : String) (cs : ClientStates)
    (hb : b ≠ a) :
    csGet (processInteractiveSell prim command a cs).2 b = csGet cs b := by
  have hset : ∀ (cs' : ClientStates) (v : IState),
      csGet (csSet cs' a v) b = csGet cs' b :=
    fun cs' v => csGet_set_ne cs' a b v hb
  have hdel : ∀ cs' : ClientStates, csGet (csDelete cs' a) b = csGet cs' b :=
    fun cs' => csGet_delete_ne cs' a b hb
  unfold processInteractiveSell
  repeat (any_goals (first | split | simp [hset, hdel]))

theorem dotTicker_clientStates (prim : Prim) (command : String)
    (st : ServerState) :
    (dotTicker prim command st).state.clientStates = st.clientStates := by
  simp only [dotTicker]
  cases hg : getMarketData st.marketData (jsToUpper (jsDrop command 1)) <;> rfl

theorem cancelCommand_clientStates (parts : List String) (st : ServerState) :
    (cancelCommand parts st).2.clientStates = st.clientStates := by
  simp only [cancelCommand]
  repeat (any_goals (first | split | rfl))

theorem sellCommand_clientStates (prim : Prim) (parts : List String)
    (st : ServerState) :
    (sellCommand prim parts st).2.clientStates = st.clientStates := by
  simp only [sellCommand]
  repeat (any_goals (first | split | rfl))

/-- `processTerminalCommand` reduced on the interactive-intercept path. -/
theorem ptc_intercept (prim : Prim) (command a : String) (st : ServerState)
    (h0 : command ≠ "")
    (h1 : (handleInteractiveResponse prim command a st.clientStates).1 ≠ "") :
    processTerminalCommand prim command (some a) st =
      ((handleInteractiveResponse prim command a st.clientStates).1,
       { st with clientStates :=
           (handleInteractiveResponse prim command a st.clientStates).2 }) := by
  simp only [processTerminalCommand]
  rw [if_neg h0, if_pos h1]

/-- `processTerminalCommand` reduced on the interactive-buy path. -/
theorem ptc_buy (prim : Prim) (command a : String) (st : ServerState)
    (h0 : command ≠ "")
    (h1 : (handleInteractiveResponse prim command a st.clientStates).1 = "")
    (h3 : jsToLower ((jsSplitSpace command).headD "") = "buy") :
    processTerminalCommand prim command (some a) st =
      ((processInteractiveBuy prim command a st.clientStates).1,
       { st with clientStates :=
           (processInteractiveBuy prim command a st.clientStates).2 }) := by
  simp only [processTerminalCommand]
  rw [if_neg h0, if_neg (fun hne => hne h1), if_pos ⟨h3, rfl⟩]
  rfl

/-- `processTerminalCommand` reduced on the interactive-sell path. -/
theorem ptc_sell (prim : Prim) (command a : String) (st : ServerState)
    (h0 : command ≠ "")
    (h1 : (handleInteractiveResponse prim command a st.clientStates).1 = "")
    (h3 : ¬ jsToLower ((jsSplitSpace command).headD "") = "buy")
    (h4 : jsToLower ((jsSplitSpace command).headD "") = "sell") :
    processTerminalCommand prim command (some a) st =
      ((processInteractiveSell prim command a st.clientStates).1,
       { st with clientStates :=
           (processInteractiveSell prim command a st.clientStates).2 }) := by
  simp only [processTerminalCommand]
  rw [if_neg h0, if_neg (fun hne => hne h1), if_neg (fun hc => h3 hc.1),
      if_pos ⟨h4, rfl⟩]
  rfl

/-- Case-splitting helper: an `ite` whose two arms both leave the wizard
map at `cs` also leaves it at `cs`. -/
theorem iteCS {cs : ClientStates} (c : Prop) [Decidable c]
    (x y : String × ServerState)
    (hx : x.2.clientStates = cs) (hy : y.2.clientStates = cs) :
    (ite c x y).2.clientStates = cs := by
  by_cases h : c
  · rw [if_pos h]; exact hx
  · rw [if_neg h]; exact hy

set_option maxHeartbeats 1000000 in
/-- Every non-interactive branch of the dispatcher leaves the wizard
map untouched. -/
theorem ptc_other (prim : Prim) (command a : String) (st : ServerState)
    (h0 : command ≠ "")
    (h1 : (handleInteractiveResponse prim command a st.clientStates).1 = "")
    (h3 : ¬ jsToLower ((jsSplitSpace command).headD "") = "buy")
    (h4 : ¬ jsToLower ((jsSplitSpace command).headD "") = "sell") :
    (processTerminalCommand prim command (some a) st).2.clientStates =
      st.clientStates := by
  simp only [processTerminalCommand]
  rw [if_neg h0, if_neg (fun hne => hne h1), if_neg (fun hc => h3 hc.1),
      if_neg (fun hc => h4 hc.1)]
  repeat
    first
    | exact dotTicker_clientStates prim command st
    | exact cancelCommand_clientStates _ st
    | exact sellCommand_clientStates prim _ st
    | rfl
    | apply iteCS

/-- C4: every operation of the interactive command parser (reached
through the dispatcher: the interactive intercept, `processInteractiveBuy`,
`processInteractiveSell` and `handleConfirmation`) keeps each stored
wizard entry well formed (type buy or sell, step 1, 2 or 3), never
decreases a retained entry's step across the transition, and deletes the
client's entry whenever the answer is a confirmation prompt, the
cancellation message, or an unrecoverable error. -/
theorem claim_C4 (prim : Prim) (command a : String) (st : ServerState)
    (hwf : WFStates st.clientStates) :
    WFStates (processTerminalCommand prim command (some a) st).2.clientStates ∧
    (∀ e e', csGet st.clientStates a = some e →
      csGet (processTerminalCommand prim command (some a) st).2.clientStates a
        = some e' → e.step ≤ e'.step) ∧
    (finalOutput (processTerminalCommand prim command (some a) st).1 →
      csGet (processTerminalCommand prim command (some a) st).2.clientStates a
        = none) := by
  by_cases h0 : command = ""
  · have hred : processTerminalCommand prim command (some a) st = ("", st) := by
      simp only [processTerminalCommand]
      rw [if_pos h0]
    rw [hred]
    refine ⟨hwf, ?_, ?_⟩
    · intro e e' he he'
      have he2 : csGet st.clientStates a = some e' := he'
      rw [he] at he2
      cases he2
      exact le_refl _
    · intro hf
      exact absurd hf (by decide : ¬ finalOutput "")
  · by_cases h1 : (handleInteractiveResponse prim command a st.clientStates).1 = ""
    · have hnone : csGet st.clientStates a = none :=
        hir_empty_imp prim command a st.clientStates hwf h1
      by_cases h3 : jsToLower ((jsSplitSpace command).headD "") = "buy"
      · rw [ptc_buy prim command a st h0 h1 h3]
        obtain ⟨hw, hf⟩ := pib_spec prim command a st.clientStates hwf hnone
        refine ⟨hw, ?_, hf⟩
        intro e e' he _
        rw [hnone] at he
        exact Option.noConfusion he
      · by_cases h4 : jsToLower ((jsSplitSpace command).headD "") = "sell"
        · rw [ptc_sell prim command a st h0 h1 h3 h4]
          obtain ⟨hw, hf⟩ := pis_spec prim command a st.clientStates hwf hnone
          refine ⟨hw, ?_, hf⟩
          intro e e' he _
          rw [hnone] at he
          exact Option.noConfusion he
        · have hcs := ptc_other prim command a st h0 h1 h3 h4
          refine ⟨?_, ?_, ?_⟩
          · rw [hcs]
            exact hwf
          · intro e e' he _
            rw [hnone] at he
            exact Option.noConfusion he
          · intro _
            rw [hcs]
            exact hnone
    · rw [ptc_intercept prim command a st h0 h1]
      cases hget : csGet st.clientStates a with
      | none =>
        refine absurd ?_ h1
        unfold handleInteractiveResponse
        rw [hget]
      | some e =>
        obtain ⟨_, hw, hstep, hfin⟩ :=
          hir_spec prim command a st.clientStates hwf e hget
        refine ⟨hw, ?_, hfin⟩
        intro e0 e' he0 he'
        cases Option.some.inj he0
        exact hstep e' he'

/-- Closed instance of `claim_C4` at a concrete store whose single
wizard entry is a step-2 buy flow, answering the quantity question. -/
theorem claim_C4_witness :
    WFStates c4Store.clientStates ∧
    (WFStates
        (processTerminalCommand defaultPrim "10" (some "c1")
          c4Store).2.clientStates ∧
     (∀ e e', csGet c4Store.clientStates "c1" = some e →
       csGet (processTerminalCommand defaultPrim "10" (some "c1")
          c4Store).2.clientStates "c1" = some e' → e.step ≤ e'.step) ∧
     (finalOutput
        (processTerminalCommand defaultPrim "10" (some "c1") c4Store).1 →
       csGet (processTerminalCommand defaultPrim "10" (some "c1")
          c4Store).2.clientStates "c1" = none)) :=
  ⟨by decide, claim_C4 defaultPrim "10" "c1" c4Store (by decide)⟩

/-- C5: processing any terminal command for client `a` (interactive or
not) leaves the wizard entry of every other client `b` unchanged: the
wizard state is keyed by client id and never written across clients. -/
theorem claim_C5 (prim : Prim) (command a b : String) (st : ServerState)
    (hb : b ≠ a) :
    csGet (processTerminalCommand prim command (some a) st).2.clientStates b =
      csGet st.clientStates b := by
  by_cases h0 : command = ""
  · have hred : processTerminalCommand prim command (some a) st = ("", st) := by
      simp only [processTerminalCommand]
      rw [if_pos h0]
    rw [hred]
  · by_cases h1 : (handleInteractiveResponse prim command a st.clientStates).1 = ""
    · by_cases h3 : jsToLower ((jsSplitSpace command).headD "") = "buy"
      · rw [ptc_buy prim command a st h0 h1 h3]
        exact pib_frame prim command a b st.clientStates hb
      · by_cases h4 : jsToLower ((jsSplitSpace command).headD "") = "sell"
        · rw [ptc_sell prim command a st h0 h1 h3 h4]
          exact pis_frame prim command a b st.clientStates hb
        · rw [ptc_other prim command a st h0 h1 h3 h4]
    · rw [ptc_intercept prim command a st h0 h1]
      exact hir_frame prim command a b st.clientStates hb

/-- Closed instance of `claim_C5`: client c1's buy flow answer does not
touch client c2's (absent) wizard entry. -/
theorem claim_C5_witness :
    ("c2" : String) ≠ "c1" ∧
    csGet (processTerminalCommand defaultPrim "10" (some "c1")
        c4Store).2.clientStates "c2" =
      csGet c4Store.clientStates "c2" :=
  ⟨by decide, claim_C5 defaultPrim "10" "c1" "c2" c4Store (by decide)⟩

end WealthCommander
